import Mathlib

/-!
Verification development for a small SQL-like relational engine
(statement parser, table/index engine, dispatcher with equi-join,
persistence contract).  The definitions below are a shallow embedding
of the TypeScript sources in `src/server/` (`table.ts`, `database.ts`,
`parser.ts`, `storage.ts`):

* runtime values (`number | string | boolean | null`, with `undefined`
  for absent object properties) become `Value` and `Option Value`;
* JavaScript loose equality `==`, strict equality `===` and the
  relational operators are embedded as boolean functions;
* JavaScript objects used as rows become insertion-ordered association
  lists with unique keys, `Map`s become insertion-ordered association
  lists with `Map.set`/`Map.delete` semantics;
* the synchronous file-system storage becomes an explicit
  `StorageState` value threaded through the operations.

Numeric values are embedded as rationals; `Number(string)` coercion is
modelled for optionally signed decimal literals with an optional
exponent (the engine's literals).  Hexadecimal/`Infinity` forms of
`Number()` and non-ASCII case conversion are outside the modelled
fragment; no claim below depends on them.
-/

namespace RDB

/-- Runtime value of the engine: a JavaScript `number`, `string`,
`boolean` or `null`.  An absent object property (JS `undefined`) is
represented as `Option.none` at use sites. -/
inductive Value where
  | num (q : ℚ)
  | str (s : String)
  | bool (b : Bool)
  | null
deriving DecidableEq, Repr

/-- Digit list to natural number (used by the `Number()` model). -/
def digitsToNat (l : List Char) : Nat :=
  l.foldl (fun a c => a * 10 + (c.toNat - '0'.toNat)) 0

/-- JS `String.trim`: drop whitespace at both ends. -/
def jsTrim (s : String) : String :=
  String.mk (((s.toList.dropWhile Char.isWhitespace).reverse.dropWhile Char.isWhitespace).reverse)

/-- JS `toUpperCase` (ASCII). -/
def upperStr (s : String) : String := String.mk (s.toList.map Char.toUpper)

/-- JS `toLowerCase` (ASCII). -/
def lowerStr (s : String) : String := String.mk (s.toList.map Char.toLower)

/-- JS `String.startsWith`. -/
def strStartsWith (s p : String) : Bool := p.toList.isPrefixOf s.toList

/-- JS `String.endsWith`. -/
def strEndsWith (s p : String) : Bool := p.toList.reverse.isPrefixOf s.toList.reverse

/-- Splitter loop of JS `String.split` with a plain separator:
leftmost, non-overlapping; the fuel is an upper bound on the number of
steps (one input character each). -/
def splitOnFuel (sep : List Char) : Nat → List Char → List Char → List (List Char)
  | 0, l, acc => [acc.reverse ++ l]
  | _ + 1, [], acc => [acc.reverse]
  | fuel + 1, c :: rest, acc =>
    if !sep.isEmpty && sep.isPrefixOf (c :: rest) then
      acc.reverse :: splitOnFuel sep fuel ((c :: rest).drop sep.length) []
    else splitOnFuel sep fuel rest (c :: acc)

/-- JS `s.split(sep)` for a plain nonempty separator string. -/
def jsSplit (s sep : String) : List String :=
  (splitOnFuel sep.toList (s.toList.length + 1) s.toList []).map String.mk

/-- JS `Array.join(sep)`. -/
def joinSep (sep : String) : List String → String
  | [] => ""
  | x :: rest => rest.foldl (fun a y => a ++ sep ++ y) x

/-- JavaScript `Number(string)` conversion, modelled for optionally
signed decimal literals with optional fractional part and exponent;
a whitespace-only string converts to `0`; `none` models `NaN`.
(The hexadecimal and `Infinity` forms of `Number()` are outside the
modelled fragment; no claim depends on them.) -/
def jsToNumber (s : String) : Option ℚ :=
  let t := jsTrim s
  if t.toList.isEmpty then some 0 else
  let cs := t.toList
  let (neg, cs1) : Bool × List Char :=
    match cs with
    | '+' :: r => (false, r)
    | '-' :: r => (true, r)
    | r => (false, r)
  let intDigits := cs1.takeWhile Char.isDigit
  let cs2 := cs1.dropWhile Char.isDigit
  let (fracDigits, cs3) : List Char × List Char :=
    match cs2 with
    | '.' :: r => (r.takeWhile Char.isDigit, r.dropWhile Char.isDigit)
    | r => ([], r)
  if intDigits.isEmpty && fracDigits.isEmpty then none else
  let (expOk, expNeg, expMag, cs4) : Bool × Bool × Nat × List Char :=
    match cs3 with
    | 'e' :: r =>
      let (esign, r1) : Bool × List Char :=
        match r with
        | '+' :: rr => (false, rr)
        | '-' :: rr => (true, rr)
        | rr => (false, rr)
      let eds := r1.takeWhile Char.isDigit
      if eds.isEmpty then (false, false, 0, r1) else
        (true, esign, digitsToNat eds, r1.dropWhile Char.isDigit)
    | 'E' :: r =>
      let (esign, r1) : Bool × List Char :=
        match r with
        | '+' :: rr => (false, rr)
        | '-' :: rr => (true, rr)
        | rr => (false, rr)
      let eds := r1.takeWhile Char.isDigit
      if eds.isEmpty then (false, false, 0, r1) else
        (true, esign, digitsToNat eds, r1.dropWhile Char.isDigit)
    | r => (true, false, 0, r)
  if !expOk then none else
  if !cs4.isEmpty then none else
  let mantNum : Nat := digitsToNat intDigits * 10 ^ fracDigits.length + digitsToNat fracDigits
  let num : Int := (if neg then -(mantNum : Int) else (mantNum : Int)) *
    (if expNeg then 1 else (10 : Int) ^ expMag)
  let den : Int := (10 : Int) ^ fracDigits.length * (if expNeg then (10 : Int) ^ expMag else 1)
  some (Rat.divInt num den)

/-- JavaScript `ToNumber` on a defined value (`none` models `NaN`). -/
def toNumberV : Value → Option ℚ
  | .num q => some q
  | .str s => jsToNumber s
  | .bool b => some (if b then 1 else 0)
  | .null => some 0

/-- JavaScript `ToNumber` including `undefined` (which is `NaN`). -/
def toNumO : Option Value → Option ℚ
  | none => none
  | some v => toNumberV v

/-- JavaScript loose equality `==` on possibly-absent values
(`none` is `undefined`). -/
def looseEq : Option Value → Option Value → Bool
  | none, none => true
  | none, some .null => true
  | some .null, none => true
  | some .null, some .null => true
  | none, some _ => false
  | some _, none => false
  | some .null, some _ => false
  | some _, some .null => false
  | some (.num x), some (.num y) => decide (x = y)
  | some (.num x), some (.str s) => decide (jsToNumber s = some x)
  | some (.str s), some (.num x) => decide (jsToNumber s = some x)
  | some (.str s), some (.str t) => decide (s = t)
  | some (.bool a), some (.bool b) => a == b
  | some (.bool a), some (.num x) => decide ((if a then (1 : ℚ) else 0) = x)
  | some (.num x), some (.bool a) => decide (x = (if a then (1 : ℚ) else 0))
  | some (.bool a), some (.str s) => decide (jsToNumber s = some (if a then (1 : ℚ) else 0))
  | some (.str s), some (.bool a) => decide (jsToNumber s = some (if a then (1 : ℚ) else 0))

/-- JavaScript strict equality `===` on possibly-absent values. -/
def strictEqO (a b : Option Value) : Bool := decide (a = b)

/-- JavaScript `<`: both strings compare lexicographically, otherwise
both sides are converted to numbers and `NaN` makes the result false. -/
def jsLt (a b : Option Value) : Bool :=
  match a, b with
  | some (.str s), some (.str t) => decide (s < t)
  | _, _ =>
    match toNumO a, toNumO b with
    | some x, some y => decide (x < y)
    | _, _ => false

/-- JavaScript `>`. -/
def jsGt (a b : Option Value) : Bool :=
  match a, b with
  | some (.str s), some (.str t) => decide (t < s)
  | _, _ =>
    match toNumO a, toNumO b with
    | some x, some y => decide (y < x)
    | _, _ => false

/-- JavaScript `<=` (`!(b < a)`, false when `NaN` is involved). -/
def jsLe (a b : Option Value) : Bool :=
  match a, b with
  | some (.str s), some (.str t) => decide (s ≤ t)
  | _, _ =>
    match toNumO a, toNumO b with
    | some x, some y => decide (x ≤ y)
    | _, _ => false

/-- JavaScript `>=`. -/
def jsGe (a b : Option Value) : Bool :=
  match a, b with
  | some (.str s), some (.str t) => decide (t ≤ s)
  | _, _ =>
    match toNumO a, toNumO b with
    | some x, some y => decide (y ≤ x)
    | _, _ => false

/-- Association-list lookup, mirroring `Map.get` / property access:
the first entry with the given key. -/
def lookupA {κ α : Type} [DecidableEq κ] (l : List (κ × α)) (k : κ) : Option α :=
  (l.find? (fun e => decide (e.1 = k))).map (·.2)

/-- Association-list write, mirroring `Map.set` / property assignment:
replaces the first entry with the key, else appends. -/
def setA {κ α : Type} [DecidableEq κ] : List (κ × α) → κ → α → List (κ × α)
  | [], k, v => [(k, v)]
  | e :: rest, k, v => if e.1 = k then (k, v) :: rest else e :: setA rest k v

/-- Modify the value at a key (first entry only), mirroring in-place
mutation of a `Map` entry; no-op when the key is absent. -/
def modA {κ α : Type} [DecidableEq κ] : List (κ × α) → κ → (α → α) → List (κ × α)
  | [], _, _ => []
  | e :: rest, k, f => if e.1 = k then (k, f e.2) :: rest else e :: modA rest k f

/-- Remove the first entry with the key, mirroring `Map.delete`. -/
def delA {κ α : Type} [DecidableEq κ] (l : List (κ × α)) (k : κ) : List (κ × α) :=
  l.eraseP (fun e => decide (e.1 = k))

/-- A row: a JavaScript object mapping column names to values,
as an insertion-ordered association list. -/
abbrev Row : Type := List (String × Value)

/-- Property read `row[k]` (`none` is JS `undefined`). -/
def rowGet (r : Row) (k : String) : Option Value := lookupA r k

/-- Property write `row[k] = v`. -/
def rowSet (r : Row) (k : String) (v : Value) : Row := setA r k v

/-- Column definition (`types.ts`): name, declared type keyword and
modifier flags.  The declared type is kept as the raw (upper-cased)
token, as in the source, where it is a string cast. -/
structure ColumnDefinition where
  name : String
  type : String
  primaryKey : Bool := false
  unique : Bool := false
  notNull : Bool := false
deriving DecidableEq, Repr

/-- Table schema (`types.ts`). -/
structure TableSchema where
  name : String
  columns : List ColumnDefinition
  primaryKey : Option String := none
  uniqueKeys : List String := []
deriving DecidableEq, Repr

/-- An index: the `Map` from indexed value to its bucket of row
identifiers, as an insertion-ordered association list. -/
abbrev Index : Type := List (Value × List Nat)

/-- Bucket lookup `index.map.get(v)`. -/
def idxGet (m : Index) (v : Value) : Option (List Nat) := lookupA m v

/-- Append a row id to the bucket for `v`, creating the bucket when
missing (`if (!map.has(v)) map.set(v, []); map.get(v)!.push(id)`). -/
def idxAppend (m : Index) (v : Value) (i : Nat) : Index :=
  if (idxGet m v).isSome then modA m v (fun ids => ids ++ [i]) else m ++ [(v, [i])]

/-- Remove the first occurrence of a row id from the bucket for `v`
(`indexOf`/`splice`), deleting the bucket when it becomes empty; no-op
when the bucket is absent. -/
def idxRemove (m : Index) (v : Value) (i : Nat) : Index :=
  match idxGet m v with
  | none => m
  | some ids =>
    let ids' := ids.erase i
    if ids' = [] then delA m v else modA m v (fun _ => ids')

/-- In-memory state of one `Table` (`table.ts`). -/
structure TableState where
  schema : TableSchema
  rows : List Row
  indexes : List (String × Index)
  nextRowId : Nat
deriving DecidableEq, Repr

/-- Persistent storage (`storage.ts`): one schema+rows blob per table
and one bucket-list blob per index, keyed by table and column name. -/
structure StorageState where
  tables : List (String × (TableSchema × List Row)) := []
  idxFiles : List ((String × String) × Index) := []
deriving DecidableEq, Repr

/-- `Storage.saveTable`. -/
def saveTable (s : StorageState) (name : String) (schema : TableSchema) (rows : List Row) :
    StorageState :=
  { s with tables := setA s.tables name (schema, rows) }

/-- `Storage.saveIndex`. -/
def saveIndex (s : StorageState) (tableName columnName : String) (idx : Index) : StorageState :=
  { s with idxFiles := setA s.idxFiles (tableName, columnName) idx }

/-- Body of `Table.createIndex`: build the index for a column from the
current rows, skipping `undefined` and `null` values. -/
def buildIndex (rows : List Row) (col : String) : Index :=
  rows.enum.foldl
    (fun m e =>
      match rowGet e.2 col with
      | some v => if v = .null then m else idxAppend m v e.1
      | none => m)
    []

/-- The indexes built by the `Table` constructor: one per unique key,
then one for the primary key (`Map.set` overwrite semantics). -/
def mkIndexes (schema : TableSchema) (rows : List Row) : List (String × Index) :=
  let base := schema.uniqueKeys.foldl (fun m c => setA m c (buildIndex rows c)) []
  match schema.primaryKey with
  | some pk => setA base pk (buildIndex rows pk)
  | none => base

/-- The `Table` constructor: rebuilds every index from the given rows
(each `createIndex` also writes its index blob) and sets the next row
identifier to the row count. -/
def mkTable (schema : TableSchema) (s : StorageState) (existingRows : List Row) :
    TableState × StorageState :=
  let cols := schema.uniqueKeys ++ (match schema.primaryKey with | some pk => [pk] | none => [])
  ({ schema := schema, rows := existingRows, indexes := mkIndexes schema existingRows,
     nextRowId := existingRows.length },
   cols.foldl (fun acc c => saveIndex acc schema.name c (buildIndex existingRows c)) s)

/-- `Table.validateType`: `null`/`undefined` always pass; otherwise the
runtime type must agree with the declared type keyword (an unrecognized
keyword rejects everything). -/
def validateType (v : Option Value) (ty : String) : Bool :=
  match v with
  | none => true
  | some .null => true
  | some val =>
    if ty = "INT" then (match val with | .num q => decide (q.den = 1) | _ => false)
    else if ty = "FLOAT" then (match val with | .num _ => true | _ => false)
    else if ty = "TEXT" then (match val with | .str _ => true | _ => false)
    else if ty = "BOOLEAN" then (match val with | .bool _ => true | _ => false)
    else false

/-- Where clause (`types.ts`): single column/operator/literal triple. -/
structure WhereClause where
  column : String
  operator : String
  value : Value
deriving DecidableEq, Repr

/-- `Table.evaluateWhere`: loose JS comparison of the row's value for
the column against the literal; an unrecognized operator matches
nothing. -/
def evaluateWhere (row : Row) (w : WhereClause) : Bool :=
  let value := rowGet row w.column
  let compareValue : Option Value := some w.value
  if w.operator = "=" then looseEq value compareValue
  else if w.operator = "!=" then !(looseEq value compareValue)
  else if w.operator = ">" then jsGt value compareValue
  else if w.operator = "<" then jsLt value compareValue
  else if w.operator = ">=" then jsGe value compareValue
  else if w.operator = "<=" then jsLe value compareValue
  else false

/-- An optional where clause matches a row when absent or satisfied. -/
def whereMatches (row : Row) : Option WhereClause → Bool
  | none => true
  | some wc => evaluateWhere row wc

/-- `Table.findByIndex`: bucket lookup followed by dereferencing each
row id, dropping out-of-range ids (`filter(r => r !== undefined)`). -/
def findByIndex (t : TableState) (columnName : String) (v : Option Value) : List Row :=
  match lookupA t.indexes columnName with
  | none => []
  | some idx =>
    let rowIds := (match v with | some val => (idxGet idx val).getD [] | none => [])
    rowIds.filterMap (fun id => t.rows.get? id)

/-- Result record of a `Table` mutation. -/
structure OpResult where
  success : Bool
  rowsAffected : Nat
  error : Option String := none
deriving DecidableEq, Repr

/-- Rendering of a value into an error message (approximate JS
number formatting; no claim depends on message contents). -/
def showValue : Option Value → String
  | none => "undefined"
  | some (.num q) => toString q
  | some (.str s) => s
  | some (.bool b) => if b then "true" else "false"
  | some .null => "null"

/-- Per-column loop of `Table.insert`: not-null check, then type
check, then store; stops at the first violation. -/
def buildRow : List ColumnDefinition → List Value → Row → Except String Row
  | [], _, acc => .ok acc
  | col :: cols, v :: vs, acc =>
    if col.notNull && decide (v = .null) then
      .error ("Column " ++ col.name ++ " cannot be null")
    else if !(validateType (some v) col.type) then
      .error ("Invalid type for column " ++ col.name ++ ". Expected " ++ col.type)
    else buildRow cols vs (rowSet acc col.name v)
  | _ :: _, [], acc => .ok acc

/-- Duplicate-unique-key scan of `Table.insert`: the first unique
column whose value already sits in its index bucket. -/
def firstDupUnique (t : TableState) (row : Row) : List String → Option String
  | [] => none
  | uk :: rest =>
    if (findByIndex t uk (rowGet row uk)) ≠ [] then
      some ("Duplicate unique key " ++ uk ++ ": " ++ showValue (rowGet row uk))
    else firstDupUnique t row rest

/-- `Table.persist`: write-through of the table blob and every index
blob. -/
def persist (t : TableState) (s : StorageState) : StorageState :=
  let s1 := saveTable s t.schema.name t.schema t.rows
  t.indexes.foldl (fun acc e => saveIndex acc t.schema.name e.1 e.2) s1

/-- `Table.insert`: arity check, per-column validation, primary-key
and unique-key duplicate checks via the index buckets, then append at
the next sequential identifier, index maintenance and persistence. -/
def insertT (t : TableState) (s : StorageState) (values : List Value) :
    OpResult × TableState × StorageState :=
  if values.length ≠ t.schema.columns.length then
    ({ success := false, rowsAffected := 0,
       error := some ("Column count mismatch. Expected " ++ toString t.schema.columns.length ++
         ", got " ++ toString values.length) }, t, s)
  else
    match buildRow t.schema.columns values [] with
    | .error e => ({ success := false, rowsAffected := 0, error := some e }, t, s)
    | .ok row =>
      match (match t.schema.primaryKey with
        | some pk =>
          if (findByIndex t pk (rowGet row pk)) ≠ [] then
            some ("Duplicate primary key: " ++ showValue (rowGet row pk))
          else none
        | none => none) with
      | some e => ({ success := false, rowsAffected := 0, error := some e }, t, s)
      | none =>
        match firstDupUnique t row t.schema.uniqueKeys with
        | some e => ({ success := false, rowsAffected := 0, error := some e }, t, s)
        | none =>
          let rowId := t.nextRowId
          let indexes' := t.indexes.map (fun e =>
            match rowGet row e.1 with
            | some v => if v = .null then e else (e.1, idxAppend e.2 v rowId)
            | none => e)
          let t' : TableState :=
            { t with rows := t.rows ++ [row], indexes := indexes', nextRowId := t.nextRowId + 1 }
          ({ success := true, rowsAffected := 1 }, t', persist t' s)

/-- Result record of `Table.select`. -/
structure SelectResult where
  rows : List Row
  rowsScanned : Nat
  indexUsed : Option String := none
deriving DecidableEq, Repr

/-- Projection of `Table.select`: keep the requested columns that the
row actually has (`hasOwnProperty`). -/
def projectRow (columns : List String) (row : Row) : Row :=
  columns.foldl
    (fun p c => match rowGet row c with | some v => rowSet p c v | none => p) []

/-- `Table.select`: an equality where-clause on an indexed column is
answered by bucket lookup (scan count = bucket size, index reported);
anything else is a full scan (scan count = row count); then the
projection is applied unless the wildcard is requested. -/
def selectT (t : TableState) (columns : List String) (w : Option WhereClause) : SelectResult :=
  let indexedPath : Option (WhereClause × Index) :=
    match w with
    | some wc =>
      if wc.operator = "=" then (lookupA t.indexes wc.column).map (fun idx => (wc, idx))
      else none
    | none => none
  let base : List Row × Nat × Option String :=
    match indexedPath with
    | some (wc, idx) =>
      let rowIds := (idxGet idx wc.value).getD []
      (rowIds.filterMap (fun id => t.rows.get? id), rowIds.length,
        some (t.schema.name ++ "_" ++ wc.column ++ "_idx"))
    | none =>
      (t.rows.filter (fun row => whereMatches row w), t.rows.length, none)
  if columns.contains "*" then
    { rows := base.1, rowsScanned := base.2.1, indexUsed := base.2.2 }
  else
    { rows := base.1.map (projectRow columns), rowsScanned := base.2.1, indexUsed := base.2.2 }

/-- Inner loop of `Table.update` over the set clause: unknown column
or type mismatch aborts, earlier assignments stay applied to the row. -/
def applySet (schema : TableSchema) : Row → List (String × Value) → Row × Option String
  | row, [] => (row, none)
  | row, (colName, v) :: rest =>
    match schema.columns.find? (fun c => decide (c.name = colName)) with
    | none => (row, some ("Column " ++ colName ++ " does not exist"))
    | some col =>
      if !(validateType (some v) col.type) then
        (row, some ("Invalid type for column " ++ colName ++ ". Expected " ++ col.type))
      else applySet schema (rowSet row colName v) rest

/-- `Table.updateIndexes`: per index, when the column's value changed,
drop the row id from the old value's bucket (deleting it when empty)
and append it to the new value's bucket. -/
def updateIndexes (indexes : List (String × Index)) (rowId : Nat) (oldRow newRow : Row) :
    List (String × Index) :=
  indexes.map (fun e =>
    let oldValue := rowGet oldRow e.1
    let newValue := rowGet newRow e.1
    if oldValue = newValue then e
    else
      let idx1 :=
        match oldValue with
        | some ov => if ov = .null then e.2 else idxRemove e.2 ov rowId
        | none => e.2
      let idx2 :=
        match newValue with
        | some nv => if nv = .null then idx1 else idxAppend idx1 nv rowId
        | none => idx1
      (e.1, idx2))

/-- Row scan of `Table.update`: each matching row gets the set clause
applied in place and its index entries refreshed; a validation failure
stops the scan with the failing row left partially assigned and the
rows after it untouched.  Returns the mutated rows, the mutated
indexes, the affected count and the error, if any. -/
def updateGo (schema : TableSchema) (setClause : List (String × Value))
    (w : Option WhereClause) :
    List Row → Nat → List (String × Index) → Nat →
    List Row × List (String × Index) × Nat × Option String
  | [], _, indexes, affected => ([], indexes, affected, none)
  | row :: rest, i, indexes, affected =>
    if whereMatches row w then
      let ae := applySet schema row setClause
      match ae.2 with
      | some e => (ae.1 :: rest, indexes, affected, some e)
      | none =>
        let indexes' := updateIndexes indexes i row ae.1
        let r := updateGo schema setClause w rest (i + 1) indexes' (affected + 1)
        (ae.1 :: r.1, r.2)
    else
      let r := updateGo schema setClause w rest (i + 1) indexes affected
      (row :: r.1, r.2)

/-- `Table.update`: full linear scan; on a validation failure the
statement reports failure with `rowsAffected = 0` (rows already
scanned stay mutated in memory and nothing is persisted); on success
the table is persisted when any row changed. -/
def updateT (t : TableState) (s : StorageState) (setClause : List (String × Value))
    (w : Option WhereClause) : OpResult × TableState × StorageState :=
  let r := updateGo t.schema setClause w t.rows 0 t.indexes 0
  let t' : TableState := { t with rows := r.1, indexes := r.2.1 }
  match r.2.2.2 with
  | some e => ({ success := false, rowsAffected := 0, error := some e }, t', s)
  | none =>
    let s' := if r.2.2.1 > 0 then persist t' s else s
    ({ success := true, rowsAffected := r.2.2.1 }, t', s')

/-- `Table.delete`: collect matching positions in scan order, then
remove them from highest to lowest, pruning each removed row's index
bucket entries; always succeeds, reporting the number removed. -/
def deleteT (t : TableState) (s : StorageState) (w : Option WhereClause) :
    OpResult × TableState × StorageState :=
  let rowsToDelete := (List.range t.rows.length).filter
    (fun i => whereMatches (t.rows.getD i []) w)
  let rr := rowsToDelete.reverse.foldl
    (fun (p : List Row × List (String × Index)) i =>
      let row := p.1.getD i []
      let indexes' := p.2.map (fun e =>
        match rowGet row e.1 with
        | some v => if v = .null then e else (e.1, idxRemove e.2 v i)
        | none => e)
      (p.1.eraseIdx i, indexes'))
    (t.rows, t.indexes)
  let t' : TableState := { t with rows := rr.1, indexes := rr.2 }
  let s' := if rowsToDelete.length > 0 then persist t' s else s
  ({ success := true, rowsAffected := rowsToDelete.length }, t', s')

/-- Join clause (`types.ts`): inner equi-join on one column pair. -/
structure JoinClause where
  table : String
  leftTable : String
  leftColumn : String
  rightTable : String
  rightColumn : String
deriving DecidableEq, Repr

/-- Parsed `CREATE TABLE`. -/
structure CreateQuery where
  tableName : String
  columns : List ColumnDefinition
deriving DecidableEq, Repr

/-- Parsed `INSERT`. -/
structure InsertQuery where
  tableName : String
  values : List Value
deriving DecidableEq, Repr

/-- Parsed `SELECT`. -/
structure SelectQuery where
  tableName : String
  selectColumns : List String
  whereClause : Option WhereClause := none
  joinClause : Option JoinClause := none
deriving DecidableEq, Repr

/-- Parsed `UPDATE`. -/
structure UpdateQuery where
  tableName : String
  setClause : List (String × Value)
  whereClause : Option WhereClause := none
deriving DecidableEq, Repr

/-- Parsed `DELETE`. -/
structure DeleteQuery where
  tableName : String
  whereClause : Option WhereClause := none
deriving DecidableEq, Repr

/-- Uniform result record of the dispatcher (`types.ts` `QueryResult`;
wall-clock `executionTime` is not modelled). -/
structure QueryResult where
  success : Bool
  rows : Option (List Row) := none
  rowsAffected : Option Nat := none
  message : Option String := none
  error : Option String := none
  rowsScanned : Option Nat := none
  indexUsed : Option String := none
deriving DecidableEq, Repr

/-- In-memory engine state (`database.ts`): the table registry and the
storage it mirrors. -/
structure DBState where
  tables : List (String × TableState) := []
  storage : StorageState := {}
deriving DecidableEq, Repr

/-- `Database.executeCreateTable`: reject a falsy name or a duplicate
registration, derive the primary key and the unique-column set from
the parsed columns, and register a fresh `Table`. -/
def executeCreateTable (db : DBState) (q : CreateQuery) : QueryResult × DBState :=
  if q.tableName = "" then
    ({ success := false, error := some "Invalid CREATE TABLE query" }, db)
  else if (lookupA db.tables q.tableName).isSome then
    ({ success := false, error := some ("Table " ++ q.tableName ++ " already exists") }, db)
  else
    let primaryKey := (q.columns.find? (fun c => c.primaryKey)).map (·.name)
    let uniqueKeys := (q.columns.filter (fun c => c.unique || c.primaryKey)).map (·.name)
    let schema : TableSchema :=
      { name := q.tableName, columns := q.columns, primaryKey := primaryKey,
        uniqueKeys := uniqueKeys }
    let ts := mkTable schema db.storage []
    ({ success := true, message := some ("Table " ++ q.tableName ++ " created successfully") },
     { tables := setA db.tables q.tableName ts.1, storage := ts.2 })

/-- `Database.executeInsert`. -/
def executeInsert (db : DBState) (q : InsertQuery) : QueryResult × DBState :=
  match lookupA db.tables q.tableName with
  | none => ({ success := false, error := some ("Table " ++ q.tableName ++ " does not exist") }, db)
  | some t =>
    let r := insertT t db.storage q.values
    let db' : DBState := { tables := setA db.tables q.tableName r.2.1, storage := r.2.2 }
    if r.1.success then
      ({ success := true, rowsAffected := some r.1.rowsAffected,
         message := some ("Inserted " ++ toString r.1.rowsAffected ++ " row(s)") }, db')
    else
      ({ success := false, error := r.1.error }, db')

/-- Merged output row of `Database.executeJoin`: every left column
under its qualified and bare name, then every right column qualified,
and bare only when the name is still free. -/
def mergeJoinRow (leftName rightName : String) (leftRow rightRow : Row) : Row :=
  let j1 := leftRow.foldl
    (fun j e => rowSet (rowSet j (leftName ++ "." ++ e.1) e.2) e.1 e.2) []
  rightRow.foldl
    (fun j e =>
      let j' := rowSet j (rightName ++ "." ++ e.1) e.2
      if (rowGet j' e.1).isSome then j' else rowSet j' e.1 e.2)
    j1

/-- `Database.executeJoin`: nested loops over the full cross product,
retaining pairs whose join columns are strictly (`===`) equal, merging
each retained pair, then applying a non-wildcard projection. -/
def executeJoin (db : DBState) (q : SelectQuery) : QueryResult :=
  match q.joinClause with
  | none => { success := false, error := some "One or both tables in JOIN do not exist" }
  | some jc =>
    match lookupA db.tables q.tableName, lookupA db.tables jc.table with
    | some leftTable, some rightTable =>
      let leftRows := leftTable.rows
      let rightRows := rightTable.rows
      let jr := leftRows.foldl
        (fun (acc : List Row × Nat) leftRow =>
          rightRows.foldl
            (fun (acc2 : List Row × Nat) rightRow =>
              let scanned := acc2.2 + 1
              if strictEqO (rowGet leftRow jc.leftColumn) (rowGet rightRow jc.rightColumn) then
                (acc2.1 ++ [mergeJoinRow q.tableName jc.table leftRow rightRow], scanned)
              else (acc2.1, scanned))
            acc)
        ([], 0)
      let resultRows :=
        if !(q.selectColumns.contains "*") then jr.1.map (projectRow q.selectColumns) else jr.1
      { success := true, rows := some resultRows, rowsScanned := some jr.2 }
    | _, _ => { success := false, error := some "One or both tables in JOIN do not exist" }

/-- `Database.executeSelect`: unknown table is a structured failure;
a join clause is delegated to the join path; otherwise the table's
select runs and its rows, scan count and index label are returned. -/
def executeSelect (db : DBState) (q : SelectQuery) : QueryResult :=
  match lookupA db.tables q.tableName with
  | none => { success := false, error := some ("Table " ++ q.tableName ++ " does not exist") }
  | some t =>
    match q.joinClause with
    | some _ => executeJoin db q
    | none =>
      let r := selectT t q.selectColumns q.whereClause
      { success := true, rows := some r.rows, rowsScanned := some r.rowsScanned,
        indexUsed := r.indexUsed }

/-- `Database.executeUpdate`. -/
def executeUpdate (db : DBState) (q : UpdateQuery) : QueryResult × DBState :=
  match lookupA db.tables q.tableName with
  | none => ({ success := false, error := some ("Table " ++ q.tableName ++ " does not exist") }, db)
  | some t =>
    let r := updateT t db.storage q.setClause q.whereClause
    let db' : DBState := { tables := setA db.tables q.tableName r.2.1, storage := r.2.2 }
    if r.1.success then
      ({ success := true, rowsAffected := some r.1.rowsAffected,
         message := some ("Updated " ++ toString r.1.rowsAffected ++ " row(s)") }, db')
    else
      ({ success := false, error := r.1.error }, db')

/-- `Database.executeDelete`: unknown table is a structured failure;
otherwise the table's delete runs and its count is reported as a
success. -/
def executeDelete (db : DBState) (q : DeleteQuery) : QueryResult × DBState :=
  match lookupA db.tables q.tableName with
  | none => ({ success := false, error := some ("Table " ++ q.tableName ++ " does not exist") }, db)
  | some t =>
    let r := deleteT t db.storage q.whereClause
    let db' : DBState := { tables := setA db.tables q.tableName r.2.1, storage := r.2.2 }
    ({ success := true, rowsAffected := some r.1.rowsAffected,
       message := some ("Deleted " ++ toString r.1.rowsAffected ++ " row(s)") }, db')

/-- Loop of `Database.loadExistingTables` over the persisted table
blobs, registering a reconstructed `Table` per blob. -/
def rehydrateGo (blobs : List (String × (TableSchema × List Row)))
    (acc : List (String × TableState) × StorageState) :
    List (String × TableState) × StorageState :=
  blobs.foldl
    (fun acc e =>
      let ts := mkTable e.2.1 acc.2 e.2.2
      (setA acc.1 e.1 ts.1, ts.2))
    acc

/-- `Database.loadExistingTables`: every persisted table blob is
enumerated and its `Table` reconstructed from the stored schema and
rows; indexes are rebuilt by the constructor, never read back from the
persisted index blobs. -/
def rehydrate (s : StorageState) : DBState :=
  let r := rehydrateGo s.tables ([], s)
  { tables := r.1, storage := r.2 }

/-- A statement of the restricted create/insert workload of the
round-trip property. -/
inductive Stmt where
  | create (q : CreateQuery)
  | ins (q : InsertQuery)
deriving DecidableEq, Repr

/-- Execute one create/insert statement against the engine. -/
def applyStmt (db : DBState) : Stmt → DBState
  | .create q => (executeCreateTable db q).2
  | .ins q => (executeInsert db q).2

/-- Execute a sequence of create/insert statements. -/
def applyStmts (stmts : List Stmt) : DBState :=
  stmts.foldl applyStmt {}

/-- Substring test on character lists (JS `String.includes`). -/
def containsL (sub : List Char) : List Char → Bool
  | [] => sub.isEmpty
  | c :: t => sub.isPrefixOf (c :: t) || containsL sub t

/-- JS `String.includes`. -/
def strContains (s sub : String) : Bool := containsL sub.toList s.toList

/-- `SQLParser.parseValue`: strip matching quotes; case-insensitive
`true`/`false`/`null`; a token `Number()` accepts becomes a number;
anything else stays a raw string. -/
def parseValue (value : String) : Value :=
  if (strStartsWith value "'" && strEndsWith value "'") ||
     (strStartsWith value "\x22" && strEndsWith value "\x22") then
    .str (String.mk (value.toList.drop 1).dropLast)
  else if lowerStr value = "true" then .bool true
  else if lowerStr value = "false" then .bool false
  else if lowerStr value = "null" then .null
  else
    match jsToNumber value with
    | some q => .num q
    | none => .str value

/-- The fixed operator scan order of `SQLParser.parseWhere`. -/
def whereOps : List String := [">=", "<=", "!=", "=", ">", "<"]

/-- Strip the optional `table.` qualifier: `col.split('.').pop()`. -/
def stripQualifier (s : String) : String := ((jsSplit s ".").reverse).headD ""

/-- Operator loop of `SQLParser.parseWhere`: the first operator of the
scan order occurring anywhere in the string splits it; the left part
loses its qualifier, the right part is coerced as a literal. -/
def parseWhereGo (wherePart : String) : List String → Option WhereClause
  | [] => none
  | op :: rest =>
    if strContains wherePart op then
      let parts := (jsSplit wherePart op).map (fun x => jsTrim x)
      some { column := stripQualifier (parts.headD ""), operator := op,
             value := parseValue (parts.getD 1 "") }
    else parseWhereGo wherePart rest

/-- `SQLParser.parseWhere` (a `none` result models the thrown
`Invalid WHERE clause` error). -/
def parseWhere (wherePart : String) : Option WhereClause :=
  parseWhereGo wherePart whereOps

/-- State of the quote-aware comma splitter. -/
structure SplitState where
  parts : List String
  current : String
  inQuotes : Bool
  quoteChar : Option Char
deriving Repr

/-- One character step of `SQLParser.splitByComma`. -/
def splitByCommaStep (st : SplitState) (c : Char) : SplitState :=
  let st1 :=
    if (c = '\'' || c = '\x22') && !st.inQuotes then
      { st with inQuotes := true, quoteChar := some c }
    else if some c = st.quoteChar && st.inQuotes then
      { st with inQuotes := false, quoteChar := none }
    else st
  if c = ',' && !st1.inQuotes then
    { st1 with parts := st1.parts ++ [jsTrim st1.current], current := "" }
  else
    { st1 with current := st1.current.push c }

/-- `SQLParser.splitByComma`: split on commas outside single/double
quotes, trimming each part and dropping a blank trailing part. -/
def splitByComma (str : String) : List String :=
  let fin := str.toList.foldl splitByCommaStep
    { parts := [], current := "", inQuotes := false, quoteChar := none }
  if jsTrim fin.current ≠ "" then fin.parts ++ [jsTrim fin.current] else fin.parts

/-- JS `s.split(/\s+/)`: segments between maximal whitespace runs
(with empty segments at boundaries, as in JavaScript), as a character
state machine over the string. -/
def jsSplitWs (s : String) : List String :=
  let fin := s.toList.foldl
    (fun (st : List String × String × Bool) c =>
      if c.isWhitespace then
        if st.2.2 then st else (st.1 ++ [st.2.1], "", true)
      else (st.1, st.2.1.push c, false))
    ([], "", false)
  if fin.2.2 then fin.1 ++ [""] else fin.1 ++ [fin.2.1]

/-- A `\w` character: letter, digit or underscore. -/
def isWordChar (c : Char) : Bool := c.isAlphanum || c = '_'

/-- Case-insensitive literal match (ASCII), returning the rest of the
input after the pattern. -/
def litCI : List Char → List Char → Option (List Char)
  | [], l => some l
  | _ :: _, [] => none
  | p :: ps, c :: cs => if p.toUpper = c.toUpper then litCI ps cs else none

/-- Try the pattern `PRIMARY KEY\s*\((\w+)\)` (case-insensitive) at
the start of the input, returning the captured column name. -/
def matchPKAt (l : List Char) : Option String :=
  match litCI "PRIMARY KEY".toList l with
  | none => none
  | some rest =>
    match rest.dropWhile Char.isWhitespace with
    | '(' :: rest3 =>
      let word := rest3.takeWhile isWordChar
      if word.isEmpty then none else
      match rest3.dropWhile isWordChar with
      | ')' :: _ => some (String.mk word)
      | _ => none
    | _ => none

/-- Leftmost match of `/PRIMARY KEY\s*\((\w+)\)/i`, as used by
`parseCreateTable` on a table-level constraint entry. -/
def findPKMatch : List Char → Option String
  | [] => none
  | c :: t =>
    match matchPKAt (c :: t) with
    | some w => some w
    | none => findPKMatch t

/-- Set the `primaryKey` flag on the first column with the given name
(`columns.find(...)` returns a mutable reference in the source). -/
def markPK : List ColumnDefinition → String → List ColumnDefinition
  | [], _ => []
  | col :: rest, c =>
    if col.name = c then { col with primaryKey := true } :: rest else col :: markPK rest c

/-- Entry classification of the `parseCreateTable` loop: does this
entry start a skipped table-level constraint? -/
def isSkippedEntry (u : String) : Bool :=
  strStartsWith u "UNIQUE" || strStartsWith u "FOREIGN KEY" || strStartsWith u "CHECK"

/-- The modifier string of a column-definition entry: the tokens after
name and type, joined and upper-cased. -/
def modifiersOf (tokens : List String) : String :=
  upperStr (joinSep " " (tokens.drop 2))

/-- Entry loop of `SQLParser.parseCreateTable` over the comma-split
parts, carrying the collected columns and the pending table-level
primary-key name; after the loop the pending name must match a
collected column or parsing fails (`none` models the thrown error). -/
def parseEntriesGo : List String → List ColumnDefinition → Option String →
    Option (List ColumnDefinition)
  | [], cols, pk =>
    match pk with
    | none => some cols
    | some c =>
      if (cols.find? (fun x => decide (x.name = c))).isSome then some (markPK cols c) else none
  | p :: rest, cols, pk =>
    let t := jsTrim p
    let u := upperStr t
    if isSkippedEntry u then parseEntriesGo rest cols pk
    else if strStartsWith u "PRIMARY KEY" then
      match findPKMatch t.toList with
      | none => none
      | some col => parseEntriesGo rest cols (some col)
    else
      let tokens := jsSplitWs t
      if tokens.length < 2 then none
      else
        let name := tokens.headD ""
        let ty := upperStr (tokens.getD 1 "")
        let modifiers := modifiersOf tokens
        let col : ColumnDefinition :=
          { name := name, type := ty,
            primaryKey := strContains modifiers "PRIMARY KEY",
            unique := strContains modifiers "UNIQUE",
            notNull := strContains modifiers "NOT NULL" }
        let pk' := if strContains modifiers "PRIMARY KEY" then some name else pk
        parseEntriesGo rest (cols ++ [col]) pk'

/-- The column/constraint part of `SQLParser.parseCreateTable`, from
the comma-split entry list of the parenthesized body. -/
def parseCreateTableEntries (parts : List String) : Option (List ColumnDefinition) :=
  parseEntriesGo parts [] none

/-- Does an entry of the column list set the table's primary key when
the `parseCreateTable` loop processes it (either a table-level
`PRIMARY KEY(...)` constraint or a column-level modifier)? -/
def entrySetsPK (p : String) : Bool :=
  let t := jsTrim p
  let u := upperStr t
  if isSkippedEntry u then false
  else if strStartsWith u "PRIMARY KEY" then true
  else
    let tokens := jsSplitWs t
    if tokens.length < 2 then false
    else strContains (modifiersOf tokens) "PRIMARY KEY"

/-- The column name an entry of the column list contributes, when it
is a (well-formed) column definition. -/
def entryColName (p : String) : Option String :=
  let t := jsTrim p
  let u := upperStr t
  if isSkippedEntry u then none
  else if strStartsWith u "PRIMARY KEY" then none
  else
    let tokens := jsSplitWs t
    if tokens.length < 2 then none else some (tokens.headD "")

/-- All column names contributed by an entry list. -/
def allColNames (parts : List String) : List String := parts.filterMap entryColName

/-- The column captured by a table-level `PRIMARY KEY(col)` constraint
entry, when the entry is one. -/
def pkEntryCol (p : String) : Option String :=
  let t := jsTrim p
  let u := upperStr t
  if isSkippedEntry u then none
  else if strStartsWith u "PRIMARY KEY" then findPKMatch t.toList
  else none

/-- Positions (in scan order) of the rows holding the value `v` in
column `col` — what a consistent index bucket for `v` must contain. -/
def matchingPositions (rows : List Row) (col : String) (v : Value) : List Nat :=
  (List.range rows.length).filter (fun i => decide (rowGet (rows.getD i []) col = some v))

/-- Exactness of one index against the rows: every bucket holds
exactly the positions of the live rows with its value, and every
non-null value held by a live row has a bucket. -/
def indexExactB (idx : Index) (col : String) (rows : List Row) : Bool :=
  idx.all (fun e => decide (e.2 = matchingPositions rows col e.1)) &&
  (List.range rows.length).all (fun i =>
    match rowGet (rows.getD i []) col with
    | some v => if v = .null then true else (idxGet idx v).isSome
    | none => true)

/-- Consistency of all of a table's index buckets with its rows. -/
def indexConsistentB (t : TableState) : Bool :=
  t.indexes.all (fun e => indexExactB e.2 e.1 t.rows)

/-- The cross product of two row lists, in nested-loop order. -/
def crossPairs : List Row → List Row → List (Row × Row)
  | [], _ => []
  | a :: l, R => R.map (fun b => (a, b)) ++ crossPairs l R

/-- Invariant tying the engine registry to its storage on the
create/insert workload: registered names carry their own schema name,
storage blobs exist only for registered tables, a blob (when present)
mirrors the live schema and rows, a table without a blob has no rows
yet, and blob keys are free of duplicates. -/
def DBInv (db : DBState) : Prop :=
  (∀ name ts, lookupA db.tables name = some ts → ts.schema.name = name) ∧
  (∀ name, lookupA db.tables name = none → lookupA db.storage.tables name = none) ∧
  (∀ name ts, lookupA db.tables name = some ts →
    lookupA db.storage.tables name = some (ts.schema, ts.rows) ∨
    (lookupA db.storage.tables name = none ∧ ts.rows = [])) ∧
  (db.storage.tables.map Prod.fst).Nodup

/-- Concrete engine for the index-consistency scenario: a table with
an `INT` primary key. -/
def c1db0 : DBState :=
  (executeCreateTable {}
    { tableName := "t", columns := [{ name := "id", type := "INT", primaryKey := true }] }).2

/-- After `INSERT INTO t VALUES (1)`. -/
def c1db1 : DBState := (executeInsert c1db0 { tableName := "t", values := [.num 1] }).2

/-- After `INSERT INTO t VALUES (2)`. -/
def c1db2 : DBState := (executeInsert c1db1 { tableName := "t", values := [.num 2] }).2

/-- The `DELETE FROM t WHERE id = 1` statement. -/
def c1del : DeleteQuery :=
  { tableName := "t", whereClause := some { column := "id", operator := "=", value := .num 1 } }

/-- After the delete that removes the first-positioned row. -/
def c1db3 : DBState := (executeDelete c1db2 c1del).2

/-- Index-consistency of the table `t` of an engine state (false when
the table is missing). -/
def c1consistent (db : DBState) : Bool :=
  match lookupA db.tables "t" with
  | some t => indexConsistentB t
  | none => false

/-- Concrete engine for the index/scan-equivalence counterexample:
two tables with identical rows, one with `name` indexed (`UNIQUE`),
one without. -/
def c2db : DBState :=
  let d1 := (executeCreateTable {}
    { tableName := "t1", columns := [{ name := "name", type := "TEXT", unique := true }] }).2
  let d2 := (executeInsert d1 { tableName := "t1", values := [.str "1"] }).2
  let d3 := (executeCreateTable d2
    { tableName := "t2", columns := [{ name := "name", type := "TEXT" }] }).2
  (executeInsert d3 { tableName := "t2", values := [.str "1"] }).2

/-- `SELECT * FROM t1 WHERE name = 1` (numeric literal against stored
strings). -/
def c2q1 : SelectQuery :=
  { tableName := "t1", selectColumns := ["*"],
    whereClause := some { column := "name", operator := "=", value := .num 1 } }

/-- `SELECT * FROM t2 WHERE name = 1`. -/
def c2q2 : SelectQuery :=
  { tableName := "t2", selectColumns := ["*"],
    whereClause := some { column := "name", operator := "=", value := .num 1 } }

/-- Witness table for the amended index/scan equivalence: `id`
indexed. -/
def c2wt : TableState :=
  { schema := { name := "t", columns := [{ name := "id", type := "INT", unique := true }],
                primaryKey := none, uniqueKeys := ["id"] },
    rows := [[("id", .num 1)], [("id", .num 2)]],
    indexes := [("id", [(.num 1, [0]), (.num 2, [1])])],
    nextRowId := 2 }

/-- The same table with no index on `id`. -/
def c2wtNo : TableState :=
  { schema := { name := "t", columns := [{ name := "id", type := "INT", unique := true }],
                primaryKey := none, uniqueKeys := ["id"] },
    rows := [[("id", .num 1)], [("id", .num 2)]],
    indexes := [],
    nextRowId := 2 }

/-- The index on `id` of the witness table. -/
def c2widx : Index := [(.num 1, [0]), (.num 2, [1])]

/-- Concrete engine for the join claims: `a` holds a numeric `1`,
`b` holds the string `"1"`. -/
def c3db : DBState :=
  let d1 := (executeCreateTable {}
    { tableName := "a", columns := [{ name := "id", type := "INT" }] }).2
  let d2 := (executeInsert d1 { tableName := "a", values := [.num 1] }).2
  let d3 := (executeCreateTable d2
    { tableName := "b", columns := [{ name := "rid", type := "TEXT" }] }).2
  (executeInsert d3 { tableName := "b", values := [.str "1"] }).2

/-- `SELECT * FROM a JOIN b ON a.id = b.rid`. -/
def c3q : SelectQuery :=
  { tableName := "a", selectColumns := ["*"], whereClause := none,
    joinClause := some { table := "b", leftTable := "a", leftColumn := "id",
                         rightTable := "b", rightColumn := "rid" } }

/-- Witness engine for the amended join claim: matching numeric
columns. -/
def c3wdb : DBState :=
  let d1 := (executeCreateTable {}
    { tableName := "a", columns := [{ name := "id", type := "INT" }] }).2
  let d2 := (executeInsert d1 { tableName := "a", values := [.num 1] }).2
  let d3 := (executeCreateTable d2
    { tableName := "b", columns := [{ name := "rid", type := "INT" }] }).2
  (executeInsert d3 { tableName := "b", values := [.num 1] }).2

/-- `SELECT * FROM a JOIN b ON a.id = b.rid` (witness query). -/
def c3wq : SelectQuery :=
  { tableName := "a", selectColumns := ["*"], whereClause := none,
    joinClause := some { table := "b", leftTable := "a", leftColumn := "id",
                         rightTable := "b", rightColumn := "rid" } }

/-- The join clause of the witness query. -/
def c3wjc : JoinClause :=
  { table := "b", leftTable := "a", leftColumn := "id", rightTable := "b",
    rightColumn := "rid" }

/-- Left table of the witness engine. -/
def c3wlt : TableState :=
  { schema := { name := "a", columns := [{ name := "id", type := "INT" }],
                primaryKey := none, uniqueKeys := [] },
    rows := [[("id", .num 1)]], indexes := [], nextRowId := 1 }

/-- Right table of the witness engine. -/
def c3wrt : TableState :=
  { schema := { name := "b", columns := [{ name := "rid", type := "INT" }],
                primaryKey := none, uniqueKeys := [] },
    rows := [[("rid", .num 1)]], indexes := [], nextRowId := 1 }

/-- Witness table for failed-insert atomicity. -/
def c4t : TableState :=
  { schema := { name := "t", columns := [{ name := "a", type := "INT" }],
                primaryKey := none, uniqueKeys := [] },
    rows := [], indexes := [], nextRowId := 0 }

/-- Concrete engine for the unknown-column claims: `t(a INT)` holding
one row. -/
def c6db : DBState :=
  let d1 := (executeCreateTable {}
    { tableName := "t", columns := [{ name := "a", type := "INT" }] }).2
  (executeInsert d1 { tableName := "t", values := [.num 1] }).2

/-- The table `t` of that engine. -/
def c6t : TableState :=
  { schema := { name := "t", columns := [{ name := "a", type := "INT" }],
                primaryKey := none, uniqueKeys := [] },
    rows := [[("a", .num 1)]], indexes := [], nextRowId := 1 }

/-- `SELECT * FROM t WHERE nosuch = 1`. -/
def c6sq : SelectQuery :=
  { tableName := "t", selectColumns := ["*"],
    whereClause := some { column := "nosuch", operator := "=", value := .num 1 } }

/-- `UPDATE t SET nosuch = 1` (no where clause, one matching row). -/
def c6uq : UpdateQuery :=
  { tableName := "t", setClause := [("nosuch", .num 1)], whereClause := none }

/-- Concrete engine for the round-trip counterexample: one table
created, nothing inserted. -/
def c7db : DBState :=
  (executeCreateTable {}
    { tableName := "t", columns := [{ name := "id", type := "INT" }] }).2

/-- Witness statement sequence: create a primary-keyed table and
insert one row. -/
def c7stmts : List Stmt :=
  [.create { tableName := "t",
             columns := [{ name := "id", type := "INT", primaryKey := true }] },
   .ins { tableName := "t", values := [.num 1] }]

/-- The live table after the witness statement sequence. -/
def c7ts : TableState :=
  { schema := { name := "t",
                columns := [{ name := "id", type := "INT", primaryKey := true }],
                primaryKey := some "id", uniqueKeys := ["id"] },
    rows := [[("id", .num 1)]],
    indexes := [("id", [(.num 1, [0])])],
    nextRowId := 1 }

/-- Concrete entry list `PRIMARY KEY(id), id INT`: the constraint
names a column only listed after it. -/
def c9parts : List String := splitByComma "PRIMARY KEY(id), id INT"

/-- Witness entry list `id INT, PRIMARY KEY(id)`. -/
def c9wpre : List String := ["id INT"]

/-- The table-level constraint entry of the witness. -/
def c9we : String := "PRIMARY KEY(id)"

/-- Concrete engine for delete totality: `t(a INT)` holding two
rows. -/
def c10db : DBState :=
  let d1 := (executeCreateTable {}
    { tableName := "t", columns := [{ name := "a", type := "INT" }] }).2
  let d2 := (executeInsert d1 { tableName := "t", values := [.num 1] }).2
  (executeInsert d2 { tableName := "t", values := [.num 2] }).2

/-- The table `t` of that engine. -/
def c10t : TableState :=
  { schema := { name := "t", columns := [{ name := "a", type := "INT" }],
                primaryKey := none, uniqueKeys := [] },
    rows := [[("a", .num 1)], [("a", .num 2)]], indexes := [], nextRowId := 2 }

/-- `DELETE FROM t WHERE a = 1`. -/
def c10q : DeleteQuery :=
  { tableName := "t", whereClause := some { column := "a", operator := "=", value := .num 1 } }

/-! Supporting lemmas. -/

/-- A failed insert returns the table, the storage and a zero affected
count unchanged: every validation and duplicate check precedes the
commit. -/
theorem insertT_fail_frame (t : TableState) (s : StorageState) (values : List Value)
    (h : (insertT t s values).1.success = false) :
    (insertT t s values).2.1 = t ∧ (insertT t s values).2.2 = s ∧
      (insertT t s values).1.rowsAffected = 0 := by
  rcases e : insertT t s values with ⟨res, t', s'⟩
  rw [e] at h
  unfold insertT at e
  split at e
  · cases e; exact ⟨rfl, rfl, rfl⟩
  · split at e
    · cases e; exact ⟨rfl, rfl, rfl⟩
    · split at e
      · cases e; exact ⟨rfl, rfl, rfl⟩
      · split at e
        · cases e; exact ⟨rfl, rfl, rfl⟩
        · cases e; exact absurd h (by simp)

/-- Filtered positions dereferenced through `get?` give exactly the
filtered rows. -/
theorem range_filter_getD_filterMap {α : Type} (d : α) (p : α → Bool) (l : List α) :
    ((List.range l.length).filter (fun i => p (l.getD i d))).filterMap (fun i => l.get? i) =
      l.filter p := by
  induction l with
  | nil => rfl
  | cons a l ih =>
    have h1 : List.range (a :: l).length = 0 :: (List.range l.length).map Nat.succ := by
      rw [List.length_cons, List.range_succ_eq_map]
    rw [h1]
    rw [List.filter_cons]
    have h2 : ((List.range l.length).map Nat.succ).filter
        (fun i => p ((a :: l).getD i d)) =
        ((List.range l.length).filter (fun i => p (l.getD i d))).map Nat.succ := by
      rw [List.filter_map]
      rfl
    by_cases hp : p a
    · simp only [List.getD_cons_zero, hp, if_pos, h2]
      rw [List.filterMap_cons]
      simp only [List.get?_cons_zero]
      rw [List.filterMap_map]
      have h3 : ((fun i => (a :: l).get? i) ∘ Nat.succ) = (fun i => l.get? i) := by
        funext i; rfl
      rw [h3, ih, List.filter_cons_of_pos hp]
    · simp only [List.getD_cons_zero, hp, if_neg, Bool.false_eq_true, not_false_iff, h2]
      rw [List.filterMap_map]
      have h3 : ((fun i => (a :: l).get? i) ∘ Nat.succ) = (fun i => l.get? i) := by
        funext i; rfl
      rw [h3, ih, List.filter_cons_of_neg (by simp [hp])]

/-- Counting the filtered positions counts the filtered rows. -/
theorem range_filter_getD_length {α : Type} (d : α) (p : α → Bool) (l : List α) :
    ((List.range l.length).filter (fun i => p (l.getD i d))).length =
      (l.filter p).length := by
  induction l with
  | nil => rfl
  | cons a l ih =>
    have h1 : List.range (a :: l).length = 0 :: (List.range l.length).map Nat.succ := by
      rw [List.length_cons, List.range_succ_eq_map]
    rw [h1, List.filter_cons]
    have h2 : ((List.range l.length).map Nat.succ).filter
        (fun i => p ((a :: l).getD i d)) =
        ((List.range l.length).filter (fun i => p (l.getD i d))).map Nat.succ := by
      rw [List.filter_map]
      rfl
    by_cases hp : p a
    · simp only [List.getD_cons_zero, hp, if_pos, h2, List.length_cons, List.length_map]
      rw [ih, List.filter_cons_of_pos hp, List.length_cons]
    · simp only [List.getD_cons_zero, hp, if_neg, Bool.false_eq_true, not_false_iff, h2,
        List.length_map]
      rw [ih, List.filter_cons_of_neg (by simp [hp])]

/-- The affected count reported by a delete is the number of rows the
predicate matched. -/
theorem deleteT_rowsAffected (t : TableState) (s : StorageState) (w : Option WhereClause) :
    (deleteT t s w).1.rowsAffected = (t.rows.filter (fun r => whereMatches r w)).length := by
  simp only [deleteT]
  exact range_filter_getD_length [] (fun r => whereMatches r w) t.rows

/-- The operator loop fails exactly when no operator of the scan
order occurs in the string. -/
theorem parseWhereGo_eq_none_iff (s : String) (ops : List String) :
    parseWhereGo s ops = none ↔ ∀ op ∈ ops, strContains s op = false := by
  induction ops with
  | nil => simp [parseWhereGo]
  | cons op rest ih =>
    by_cases hc : strContains s op
    · simp [parseWhereGo, hc]
    · simp only [parseWhereGo, hc, Bool.false_eq_true, if_false, ih, List.mem_cons]
      constructor
      · intro hall o ho
        rcases ho with rfl | ho
        · simpa using hc
        · exact hall o ho
      · intro hall o ho
        exact hall o (Or.inr ho)

/-- The operator loop returns the clause split at the first operator
of the scan order that occurs in the string. -/
theorem parseWhereGo_eq_of_find (s : String) (ops : List String) (op : String)
    (h : ops.find? (fun o => strContains s o) = some op) :
    parseWhereGo s ops =
      some { column := stripQualifier (((jsSplit s op).map (fun x => jsTrim x)).headD ""),
             operator := op,
             value := parseValue (((jsSplit s op).map (fun x => jsTrim x)).getD 1 "") } := by
  induction ops with
  | nil => simp at h
  | cons o rest ih =>
    by_cases hc : strContains s o
    · rw [List.find?_cons_of_pos _ hc] at h
      cases h
      simp [parseWhereGo, hc]
    · rw [List.find?_cons_of_neg _ (by simp [hc])] at h
      simp [parseWhereGo, hc, ih h]

/-- An exact index answers every non-null value with exactly the
matching positions (the empty list when no row matches). -/
theorem indexExactB_bucket (idx : Index) (col : String) (rows : List Row) (v : Value)
    (hv : v ≠ .null) (h : indexExactB idx col rows = true) :
    (idxGet idx v).getD [] = matchingPositions rows col v := by
  simp only [indexExactB, Bool.and_eq_true, List.all_eq_true] at h
  obtain ⟨h1, h2⟩ := h
  cases hg : idxGet idx v with
  | some ids =>
    unfold idxGet lookupA at hg
    cases hf : idx.find? (fun e => decide (e.1 = v)) with
    | none => rw [hf] at hg; simp at hg
    | some e =>
      rw [hf] at hg
      simp only [Option.map, Option.some.injEq] at hg
      have hmem := List.mem_of_find?_eq_some hf
      have hpred := List.find?_some hf
      simp only [decide_eq_true_eq] at hpred
      have hx := h1 e hmem
      simp only [decide_eq_true_eq] at hx
      rw [Option.getD_some, ← hg, hx, hpred]
  | none =>
    simp only [Option.getD_none]
    rcases hne : matchingPositions rows col v with _ | ⟨i, rest⟩
    · rfl
    · exfalso
      have hi : i ∈ matchingPositions rows col v := by
        rw [hne]; exact List.mem_cons_self i rest
      unfold matchingPositions at hi
      rw [List.mem_filter] at hi
      obtain ⟨hir, hpi⟩ := hi
      have h2i := h2 i hir
      simp only [decide_eq_true_eq] at hpi
      rw [hpi] at h2i
      simp [hv, hg] at h2i

/-- Inner loop of the join: scanning one left row against every right
row appends the merged retained pairs and counts every right row. -/
theorem joinInnerFold (rightRows : List Row) (leftRow : Row) (lc rc tn rn : String) :
    ∀ acc : List Row × Nat,
      rightRows.foldl
        (fun (acc2 : List Row × Nat) rightRow =>
          let scanned := acc2.2 + 1
          if strictEqO (rowGet leftRow lc) (rowGet rightRow rc) then
            (acc2.1 ++ [mergeJoinRow tn rn leftRow rightRow], scanned)
          else (acc2.1, scanned))
        acc =
      (acc.1 ++ ((rightRows.filter
          (fun rightRow => strictEqO (rowGet leftRow lc) (rowGet rightRow rc))).map
        (fun rightRow => mergeJoinRow tn rn leftRow rightRow)), acc.2 + rightRows.length) := by
  induction rightRows with
  | nil => intro acc; simp
  | cons r rest ih =>
    intro acc
    rw [List.foldl_cons, ih, Prod.mk.injEq]
    by_cases hc : strictEqO (rowGet leftRow lc) (rowGet r rc)
    · refine ⟨?_, ?_⟩
      · rw [List.filter_cons_of_pos (by simpa using hc), List.map_cons]
        simp [hc]
      · rw [List.length_cons]
        simp [hc]
        omega
    · refine ⟨?_, ?_⟩
      · rw [List.filter_cons_of_neg (by simpa using hc)]
        simp [hc]
      · rw [List.length_cons]
        simp [hc]
        omega

/-- Outer loop of the join: the nested scan over both tables appends
the merged retained pairs of the cross product (in nested-loop order)
and counts `|left| * |right|`. -/
theorem joinOuterFold (leftRows rightRows : List Row) (lc rc tn rn : String) :
    ∀ acc : List Row × Nat,
      leftRows.foldl
        (fun (acc : List Row × Nat) leftRow =>
          rightRows.foldl
            (fun (acc2 : List Row × Nat) rightRow =>
              let scanned := acc2.2 + 1
              if strictEqO (rowGet leftRow lc) (rowGet rightRow rc) then
                (acc2.1 ++ [mergeJoinRow tn rn leftRow rightRow], scanned)
              else (acc2.1, scanned))
            acc)
        acc =
      (acc.1 ++ (((crossPairs leftRows rightRows).filter
          (fun p => strictEqO (rowGet p.1 lc) (rowGet p.2 rc))).map
        (fun p => mergeJoinRow tn rn p.1 p.2)),
       acc.2 + leftRows.length * rightRows.length) := by
  induction leftRows with
  | nil => intro acc; simp [crossPairs]
  | cons a rest ih =>
    intro acc
    rw [List.foldl_cons, joinInnerFold rightRows a lc rc tn rn acc, ih, Prod.mk.injEq]
    refine ⟨?_, ?_⟩
    · simp only [crossPairs, List.filter_append, List.map_append, List.filter_map,
        List.append_assoc, List.map_map]
      congr 1
    · simp only [List.length_cons]
      ring

/-- When some set-clause entry names a column absent from the schema,
applying the set clause to any row reports an error. -/
theorem applySet_err_of_unknown (schema : TableSchema) (entries : List (String × Value))
    (h : ∃ e ∈ entries, ∀ c ∈ schema.columns, c.name ≠ e.1) :
    ∀ row, (applySet schema row entries).2.isSome = true := by
  induction entries with
  | nil => simp at h
  | cons e rest ih =>
    intro row
    obtain ⟨w, hw, hnone⟩ := h
    cases hf : schema.columns.find? (fun c => decide (c.name = e.1)) with
    | none => simp [applySet, hf]
    | some col =>
      have hcolmem := List.mem_of_find?_eq_some hf
      have hcolpred := List.find?_some hf
      simp only [decide_eq_true_eq] at hcolpred
      rcases List.mem_cons.mp hw with rfl | hwrest
      · exact absurd hcolpred (hnone col hcolmem)
      · simp only [applySet, hf]
        by_cases hv : validateType (some e.2) col.type
        · simp only [hv, Bool.not_true, Bool.false_eq_true, if_false]
          exact ih ⟨w, hwrest, hnone⟩ (rowSet row e.1 e.2)
        · simp [hv]

/-- When every set-clause entry names a known column and type-checks,
applying the set clause reports no error. -/
theorem applySet_ok_of_valid (schema : TableSchema) (entries : List (String × Value))
    (h : ∀ e ∈ entries, ∃ col,
      schema.columns.find? (fun c => decide (c.name = e.1)) = some col ∧
      validateType (some e.2) col.type = true) :
    ∀ row, (applySet schema row entries).2 = none := by
  induction entries with
  | nil => intro row; rfl
  | cons e rest ih =>
    intro row
    obtain ⟨col, hf, hv⟩ := h e (List.mem_cons_self e rest)
    simp only [applySet, hf, hv, Bool.not_true, Bool.false_eq_true, if_false]
    exact ih (fun x hx => h x (List.mem_cons_of_mem e hx)) (rowSet row e.1 e.2)

/-- The update scan reports an error when some row matches the filter
and some set-clause entry names an unknown column. -/
theorem updateGo_err_of_unknown (schema : TableSchema) (setClause : List (String × Value))
    (w : Option WhereClause)
    (hbad : ∃ e ∈ setClause, ∀ c ∈ schema.columns, c.name ≠ e.1) :
    ∀ (rows : List Row) (i : Nat) (indexes : List (String × Index)) (affected : Nat),
      (∃ r ∈ rows, whereMatches r w = true) →
      (updateGo schema setClause w rows i indexes affected).2.2.2.isSome = true := by
  intro rows
  induction rows with
  | nil => intro i indexes affected h; simp at h
  | cons row rest ih =>
    intro i indexes affected h
    by_cases hm : whereMatches row w
    · have herr := applySet_err_of_unknown schema setClause hbad row
      cases ha : (applySet schema row setClause).2 with
      | none => rw [ha] at herr; simp at herr
      | some e => simp [updateGo, hm, ha]
    · obtain ⟨r, hr, hrm⟩ := h
      rcases List.mem_cons.mp hr with rfl | hrrest
      · exact absurd hrm (by simpa using hm)
      · simp only [updateGo, hm, Bool.false_eq_true, if_false]
        exact ih (i + 1) indexes affected ⟨r, hrrest, hrm⟩

/-- The update scan reports no error when every set-clause entry is
valid against the schema. -/
theorem updateGo_ok_of_valid (schema : TableSchema) (setClause : List (String × Value))
    (w : Option WhereClause)
    (hgood : ∀ e ∈ setClause, ∃ col,
      schema.columns.find? (fun c => decide (c.name = e.1)) = some col ∧
      validateType (some e.2) col.type = true) :
    ∀ (rows : List Row) (i : Nat) (indexes : List (String × Index)) (affected : Nat),
      (updateGo schema setClause w rows i indexes affected).2.2.2 = none := by
  intro rows
  induction rows with
  | nil => intro i indexes affected; rfl
  | cons row rest ih =>
    intro i indexes affected
    by_cases hm : whereMatches row w
    · have hok := applySet_ok_of_valid schema setClause hgood row
      simp only [updateGo, hm, if_true, hok]
      exact ih (i + 1) _ (affected + 1)
    · simp only [updateGo, hm, Bool.false_eq_true, if_false]
      exact ih (i + 1) indexes affected

/-- Lookup after writing the same key. -/
theorem lookupA_setA_self {κ α : Type} [DecidableEq κ] (l : List (κ × α)) (k : κ) (v : α) :
    lookupA (setA l k v) k = some v := by
  induction l with
  | nil => simp [setA, lookupA]
  | cons e rest ih =>
    by_cases he : e.1 = k
    · simp [setA, he, lookupA]
    · simp only [setA, he, if_false]
      simpa [lookupA, List.find?_cons, he] using ih

/-- Lookup after writing a different key. -/
theorem lookupA_setA_ne {κ α : Type} [DecidableEq κ] (l : List (κ × α)) (k k' : κ) (v : α)
    (h : k' ≠ k) : lookupA (setA l k v) k' = lookupA l k' := by
  induction l with
  | nil => simp [setA, lookupA, List.find?_cons, Ne.symm h]
  | cons e rest ih =>
    obtain ⟨ek, ev⟩ := e
    by_cases he : ek = k
    · subst he
      simp [setA, lookupA, List.find?_cons, Ne.symm h]
    · simp only [setA, he, if_false]
      simp only [lookupA, List.find?_cons]
      by_cases he' : ek = k'
      · simp [he']
      · simp only [he', decide_eq_false, Bool.false_eq_true, if_false]
        exact ih

/-- Rewriting an entry to the value it already holds is a no-op. -/
theorem setA_self_of_lookup {κ α : Type} [DecidableEq κ] (l : List (κ × α)) (k : κ) (v : α)
    (h : lookupA l k = some v) : setA l k v = l := by
  induction l with
  | nil => simp [lookupA] at h
  | cons e rest ih =>
    obtain ⟨ek, ev⟩ := e
    by_cases he : ek = k
    · subst he
      simp [lookupA, List.find?_cons] at h
      subst h
      simp [setA]
    · simp only [setA, he, if_false, List.cons.injEq, true_and]
      refine ih ?_
      simpa [lookupA, List.find?_cons, he] using h

/-- Written keys are old keys or the written one. -/
theorem mem_keys_setA {κ α : Type} [DecidableEq κ] (l : List (κ × α)) (k a : κ) (v : α)
    (h : a ∈ (setA l k v).map Prod.fst) : a ∈ l.map Prod.fst ∨ a = k := by
  induction l with
  | nil => simpa [setA] using h
  | cons e rest ih =>
    by_cases he : e.1 = k
    · simp only [setA, he, if_true, List.map_cons, List.mem_cons] at h ⊢
      rcases h with rfl | h
      · right; rfl
      · left; right; exact h
    · simp only [setA, he, if_false, List.map_cons, List.mem_cons] at h ⊢
      rcases h with rfl | h
      · left; left; rfl
      · rcases ih h with h' | h'
        · left; right; exact h'
        · right; exact h'

/-- Writing preserves key uniqueness. -/
theorem nodup_keys_setA {κ α : Type} [DecidableEq κ] (l : List (κ × α)) (k : κ) (v : α)
    (h : (l.map Prod.fst).Nodup) : ((setA l k v).map Prod.fst).Nodup := by
  induction l with
  | nil => simp [setA]
  | cons e rest ih =>
    rw [List.map_cons, List.nodup_cons] at h
    obtain ⟨hnot, hrest⟩ := h
    by_cases he : e.1 = k
    · simp only [setA, he, if_true, List.map_cons, List.nodup_cons]
      exact ⟨he ▸ hnot, hrest⟩
    · simp only [setA, he, if_false, List.map_cons, List.nodup_cons]
      refine ⟨?_, ih hrest⟩
      intro hmem
      rcases mem_keys_setA rest k e.1 v hmem with h' | h'
      · exact hnot h'
      · exact he h'

/-- Index-blob writes never touch the table blobs. -/
theorem foldl_saveIndex_tables (n : String) (l : List (String × Index)) :
    ∀ s : StorageState,
      (l.foldl (fun acc e => saveIndex acc n e.1 e.2) s).tables = s.tables := by
  induction l with
  | nil => intro s; rfl
  | cons e rest ih => intro s; rw [List.foldl_cons, ih]; rfl

/-- The constructor writes only index blobs. -/
theorem mkTable_storage_tables (schema : TableSchema) (s : StorageState) (rows : List Row) :
    (mkTable schema s rows).2.tables = s.tables := by
  unfold mkTable saveIndex
  generalize (schema.uniqueKeys ++
    (match schema.primaryKey with | some pk => [pk] | none => [])) = cols
  induction cols generalizing s with
  | nil => rfl
  | cons c rest ih => exact ih _

/-- Persisting writes the table blob under the schema's name and
leaves other table blobs alone. -/
theorem persist_tables (t : TableState) (s : StorageState) :
    (persist t s).tables = setA s.tables t.schema.name (t.schema, t.rows) := by
  unfold persist
  rw [foldl_saveIndex_tables]
  rfl

/-- An insert either leaves table and storage unchanged (failure) or
appends one row, keeps the schema, and persists the new table state
(success). -/
theorem insertT_cases (t : TableState) (s : StorageState) (values : List Value) :
    (insertT t s values).2 = (t, s) ∨
    ((insertT t s values).2.1.schema = t.schema ∧
     (insertT t s values).2.1.rows ≠ [] ∧
     (insertT t s values).2.2 = persist (insertT t s values).2.1 s) := by
  rcases e : insertT t s values with ⟨res, t', s'⟩
  unfold insertT at e
  split at e
  · cases e; left; rfl
  · split at e
    · cases e; left; rfl
    · split at e
      · cases e; left; rfl
      · split at e
        · cases e; left; rfl
        · cases e
          right
          exact ⟨rfl, by simp, rfl⟩

/-- Second projection of a conditional pair. -/
theorem snd_ite {α β : Type} (c : Prop) [Decidable c] (x y : α × β) :
    (if c then x else y).2 = if c then x.2 else y.2 := by
  split <;> rfl

/-- A create either leaves the engine unchanged (failure) or, when the
name was unregistered, registers a fresh empty table under it without
touching the table blobs. -/
theorem executeCreateTable_cases (db : DBState) (q : CreateQuery) :
    (executeCreateTable db q).2 = db ∨
    (lookupA db.tables q.tableName = none ∧
     ∃ schema : TableSchema, schema.name = q.tableName ∧
       (executeCreateTable db q).2.tables =
         setA db.tables q.tableName
           { schema := schema, rows := [], indexes := mkIndexes schema [], nextRowId := 0 } ∧
       (executeCreateTable db q).2.storage.tables = db.storage.tables) := by
  rcases e : executeCreateTable db q with ⟨res, db'⟩
  unfold executeCreateTable at e
  split at e
  · cases e; left; rfl
  · split at e
    · cases e; left; rfl
    · rename_i hname hsome
      cases e
      right
      refine ⟨?_, _, rfl, rfl, ?_⟩
      · cases hx : lookupA db.tables q.tableName
        · rfl
        · rw [hx] at hsome; simp at hsome
      · exact mkTable_storage_tables _ _ _

/-- An insert either leaves the engine unchanged (failure or unknown
table) or re-registers the looked-up table with one appended row and
mirrors its schema and rows into the table blob keyed by the schema
name. -/
theorem executeInsert_cases (db : DBState) (q : InsertQuery) :
    (executeInsert db q).2 = db ∨
    (∃ t t' : TableState, lookupA db.tables q.tableName = some t ∧
      t'.schema = t.schema ∧ t'.rows ≠ [] ∧
      (executeInsert db q).2.tables = setA db.tables q.tableName t' ∧
      (executeInsert db q).2.storage.tables =
        setA db.storage.tables t.schema.name (t.schema, t'.rows)) := by
  cases hl : lookupA db.tables q.tableName with
  | none => left; simp [executeInsert, hl]
  | some t =>
    rcases insertT_cases t db.storage q.values with hfail | ⟨hsch, hne, hpers⟩
    · left
      have ht1 : (insertT t db.storage q.values).2.1 = t := by rw [hfail]
      have ht2 : (insertT t db.storage q.values).2.2 = db.storage := by rw [hfail]
      simp only [executeInsert, hl, snd_ite, ite_self, ht1, ht2,
        setA_self_of_lookup db.tables q.tableName t hl]
    · right
      refine ⟨t, (insertT t db.storage q.values).2.1, rfl, hsch, hne, ?_, ?_⟩
      · simp only [executeInsert, hl, snd_ite, ite_self]
      · simp only [executeInsert, hl, snd_ite, ite_self]
        rw [hpers, persist_tables, hsch]

/-- The empty engine satisfies the storage invariant. -/
theorem DBInv_empty : DBInv {} := by
  refine ⟨?_, ?_, ?_, ?_⟩
  · intro name ts h; simp [lookupA] at h
  · intro name _; rfl
  · intro name ts h; simp [lookupA] at h
  · simp

/-- A create statement preserves the storage invariant. -/
theorem DBInv_create (db : DBState) (q : CreateQuery) (h : DBInv db) :
    DBInv (executeCreateTable db q).2 := by
  obtain ⟨i1, i2, i3, i4⟩ := h
  rcases executeCreateTable_cases db q with heq | ⟨hnone, schema, hsname, htab, hstor⟩
  · rw [heq]; exact ⟨i1, i2, i3, i4⟩
  · refine ⟨?_, ?_, ?_, ?_⟩
    · intro name ts hts
      rw [htab] at hts
      by_cases hn : name = q.tableName
      · subst hn
        rw [lookupA_setA_self] at hts
        cases hts
        exact hsname
      · rw [lookupA_setA_ne _ _ _ _ hn] at hts
        exact i1 name ts hts
    · intro name hts
      rw [htab] at hts
      rw [hstor]
      by_cases hn : name = q.tableName
      · subst hn
        rw [lookupA_setA_self] at hts
        cases hts
      · rw [lookupA_setA_ne _ _ _ _ hn] at hts
        exact i2 name hts
    · intro name ts hts
      rw [htab] at hts
      rw [hstor]
      by_cases hn : name = q.tableName
      · subst hn
        rw [lookupA_setA_self] at hts
        cases hts
        right
        exact ⟨i2 _ hnone, rfl⟩
      · rw [lookupA_setA_ne _ _ _ _ hn] at hts
        exact i3 name ts hts
    · rw [hstor]; exact i4

/-- An insert statement preserves the storage invariant. -/
theorem DBInv_insert (db : DBState) (q : InsertQuery) (h : DBInv db) :
    DBInv (executeInsert db q).2 := by
  obtain ⟨i1, i2, i3, i4⟩ := h
  rcases executeInsert_cases db q with heq | ⟨t, t', hl, hsch, _, htab, hstor⟩
  · rw [heq]; exact ⟨i1, i2, i3, i4⟩
  · have hkey : t.schema.name = q.tableName := i1 _ _ hl
    refine ⟨?_, ?_, ?_, ?_⟩
    · intro name ts hts
      rw [htab] at hts
      by_cases hn : name = q.tableName
      · subst hn
        rw [lookupA_setA_self] at hts
        cases hts
        rw [hsch]
        exact hkey
      · rw [lookupA_setA_ne _ _ _ _ hn] at hts
        exact i1 name ts hts
    · intro name hts
      rw [htab] at hts
      rw [hstor, hkey]
      by_cases hn : name = q.tableName
      · subst hn
        rw [lookupA_setA_self] at hts
        cases hts
      · rw [lookupA_setA_ne _ _ _ _ hn] at hts
        rw [lookupA_setA_ne _ _ _ _ hn]
        exact i2 name hts
    · intro name ts hts
      rw [htab] at hts
      rw [hstor, hkey]
      by_cases hn : name = q.tableName
      · subst hn
        rw [lookupA_setA_self] at hts
        cases hts
        left
        rw [lookupA_setA_self, hsch]
      · rw [lookupA_setA_ne _ _ _ _ hn] at hts
        rw [lookupA_setA_ne _ _ _ _ hn]
        exact i3 name ts hts
    · rw [hstor]
      exact nodup_keys_setA _ _ _ i4

/-- Every create/insert statement sequence from the empty engine
satisfies the storage invariant. -/
theorem DBInv_applyStmts (stmts : List Stmt) : DBInv (applyStmts stmts) := by
  suffices hgen : ∀ db, DBInv db → DBInv (stmts.foldl applyStmt db) from hgen {} DBInv_empty
  induction stmts with
  | nil => intro db h; exact h
  | cons st rest ih =>
    intro db h
    rw [List.foldl_cons]
    refine ih _ ?_
    cases st with
    | create q => exact DBInv_create db q h
    | ins q => exact DBInv_insert db q h

/-- Rehydration leaves keys it never processes alone. -/
theorem rehydrateGo_lookup_notmem (name : String)
    (blobs : List (String × (TableSchema × List Row)))
    (hnm : name ∉ blobs.map Prod.fst) :
    ∀ acc : List (String × TableState) × StorageState,
      lookupA (rehydrateGo blobs acc).1 name = lookupA acc.1 name := by
  induction blobs with
  | nil => intro acc; rfl
  | cons b rest ih =>
    intro acc
    simp only [List.map_cons, List.mem_cons] at hnm
    push_neg at hnm
    rw [show rehydrateGo (b :: rest) acc = rehydrateGo rest
      (setA acc.1 b.1 (mkTable b.2.1 acc.2 b.2.2).1, (mkTable b.2.1 acc.2 b.2.2).2) from rfl]
    rw [ih hnm.2]
    exact lookupA_setA_ne _ _ _ _ hnm.1

/-- Rehydrating duplicate-free blobs reconstructs, for each stored
blob, a table with the stored schema and rows whose indexes are
rebuilt from those rows. -/
theorem rehydrateGo_lookup (name : String) (sch : TableSchema) (rows : List Row)
    (blobs : List (String × (TableSchema × List Row)))
    (hnd : (blobs.map Prod.fst).Nodup)
    (hfound : lookupA blobs name = some (sch, rows)) :
    ∀ acc : List (String × TableState) × StorageState,
      lookupA (rehydrateGo blobs acc).1 name =
        some { schema := sch, rows := rows, indexes := mkIndexes sch rows,
               nextRowId := rows.length } := by
  induction blobs with
  | nil => intro acc; simp [lookupA] at hfound
  | cons b rest ih =>
    intro acc
    rw [List.map_cons, List.nodup_cons] at hnd
    rw [show rehydrateGo (b :: rest) acc = rehydrateGo rest
      (setA acc.1 b.1 (mkTable b.2.1 acc.2 b.2.2).1, (mkTable b.2.1 acc.2 b.2.2).2) from rfl]
    by_cases hn : b.1 = name
    · subst hn
      have hfound' : b.2 = (sch, rows) := by
        simpa [lookupA, List.find?_cons] using hfound
      rw [rehydrateGo_lookup_notmem b.1 rest hnd.1, lookupA_setA_self, hfound']
      rfl
    · refine .trans (ih hnd.2 ?_ _) rfl
      simpa [lookupA, List.find?_cons, hn] using hfound

/-- When no later entry sets a primary key, a successful run of the
entry loop with a pending primary-key name requires that name to be a
column collected so far or contributed by the remaining entries. -/
theorem parseEntriesGo_pk_mem (post : List String) :
    ∀ (cols : List ColumnDefinition) (c : String),
      (∀ p ∈ post, entrySetsPK p = false) →
      (parseEntriesGo post cols (some c)).isSome = true →
      c ∈ cols.map (fun x => x.name) ++ allColNames post := by
  induction post with
  | nil =>
    intro cols c _ hok
    simp only [parseEntriesGo] at hok
    by_cases hf : (cols.find? (fun x => decide (x.name = c))).isSome
    · cases hfe : cols.find? (fun x => decide (x.name = c)) with
      | none => rw [hfe] at hf; simp at hf
      | some x =>
        have hmem := List.mem_of_find?_eq_some hfe
        have hpred := List.find?_some hfe
        simp only [decide_eq_true_eq] at hpred
        simp only [allColNames, List.filterMap_nil, List.append_nil]
        exact List.mem_map.mpr ⟨x, hmem, hpred⟩
    · simp [hf] at hok
  | cons p rest ih =>
    intro cols c hall hok
    have hp := hall p (List.mem_cons_self p rest)
    by_cases hskip : isSkippedEntry (upperStr (jsTrim p))
    · have hok' : (parseEntriesGo rest cols (some c)).isSome = true := by
        simpa [parseEntriesGo, hskip] using hok
      have hmem := ih cols c (fun x hx => hall x (List.mem_cons_of_mem p hx)) hok'
      have hcn : entryColName p = none := by simp [entryColName, hskip]
      simpa [allColNames, List.filterMap_cons, hcn] using hmem
    · by_cases hpkb : strStartsWith (upperStr (jsTrim p)) "PRIMARY KEY"
      · have hcontra : entrySetsPK p = true := by simp [entrySetsPK, hskip, hpkb]
        rw [hp] at hcontra
        simp at hcontra
      · by_cases hlen : (jsSplitWs (jsTrim p)).length < 2
        · have hnone : parseEntriesGo (p :: rest) cols (some c) = none := by
            simp [parseEntriesGo, hskip, hpkb, hlen]
          rw [hnone] at hok
          simp at hok
        · cases hmod : strContains (modifiersOf (jsSplitWs (jsTrim p))) "PRIMARY KEY" with
          | true =>
            have hcontra : entrySetsPK p = true := by
              simp [entrySetsPK, hskip, hpkb, hlen, hmod]
            rw [hp] at hcontra
            simp at hcontra
          | false =>
            have hok' : (parseEntriesGo rest
                (cols ++ [{ name := (jsSplitWs (jsTrim p)).headD "",
                            type := upperStr ((jsSplitWs (jsTrim p)).getD 1 ""),
                            primaryKey := strContains (modifiersOf (jsSplitWs (jsTrim p)))
                              "PRIMARY KEY",
                            unique := strContains (modifiersOf (jsSplitWs (jsTrim p))) "UNIQUE",
                            notNull := strContains (modifiersOf (jsSplitWs (jsTrim p)))
                              "NOT NULL" }])
                (some c)).isSome = true := by
              simpa [parseEntriesGo, hskip, hpkb, hlen, hmod] using hok
            have hmem := ih _ c (fun x hx => hall x (List.mem_cons_of_mem p hx)) hok'
            have hcn : entryColName p = some ((jsSplitWs (jsTrim p)).headD "") := by
              simp [entryColName, hskip, hpkb, hlen]
            simp only [allColNames, List.filterMap_cons, hcn, List.map_append, List.map_cons,
              List.map_nil, List.mem_append, List.mem_cons, List.mem_singleton] at hmem ⊢
            rcases hmem with (hmem | hmem) | hmem
            · exact Or.inl hmem
            · simp only [List.not_mem_nil, or_false] at hmem
              exact Or.inr (Or.inl hmem)
            · exact Or.inr (Or.inr hmem)

/-- Running the entry loop over a prefix either fails or reaches the
suffix with some collected columns (all named in the prefix) and some
pending primary-key name. -/
theorem parseEntriesGo_append (pre : List String) :
    ∀ (rest' : List String) (cols : List ColumnDefinition) (pk : Option String),
      (parseEntriesGo (pre ++ rest') cols pk).isSome = true →
      ∃ cols2 pk2, parseEntriesGo (pre ++ rest') cols pk = parseEntriesGo rest' cols2 pk2 ∧
        ∀ a ∈ cols2.map (fun x => x.name),
          a ∈ cols.map (fun x => x.name) ++ allColNames pre := by
  induction pre with
  | nil =>
    intro rest' cols pk _
    exact ⟨cols, pk, rfl, by simp [allColNames]⟩
  | cons p pre' ih =>
    intro rest' cols pk hok
    rw [List.cons_append] at hok ⊢
    by_cases hskip : isSkippedEntry (upperStr (jsTrim p))
    · have hstep : parseEntriesGo (p :: (pre' ++ rest')) cols pk =
          parseEntriesGo (pre' ++ rest') cols pk := by
        simp [parseEntriesGo, hskip]
      rw [hstep] at hok ⊢
      obtain ⟨c2, p2, heq, hsub⟩ := ih rest' cols pk hok
      refine ⟨c2, p2, heq, ?_⟩
      intro a ha
      have hone := hsub a ha
      have hcn : entryColName p = none := by simp [entryColName, hskip]
      simpa [allColNames, List.filterMap_cons, hcn] using hone
    · by_cases hpkb : strStartsWith (upperStr (jsTrim p)) "PRIMARY KEY"
      · cases hfm : findPKMatch (jsTrim p).data with
        | none =>
          have hnone : parseEntriesGo (p :: (pre' ++ rest')) cols pk = none := by
            simp [parseEntriesGo, hskip, hpkb, hfm]
          rw [hnone] at hok
          simp at hok
        | some w =>
          have hstep : parseEntriesGo (p :: (pre' ++ rest')) cols pk =
              parseEntriesGo (pre' ++ rest') cols (some w) := by
            simp [parseEntriesGo, hskip, hpkb, hfm]
          rw [hstep] at hok ⊢
          obtain ⟨c2, p2, heq, hsub⟩ := ih rest' cols (some w) hok
          refine ⟨c2, p2, heq, ?_⟩
          intro a ha
          have hone := hsub a ha
          have hcn : entryColName p = none := by simp [entryColName, hskip, hpkb]
          simpa [allColNames, List.filterMap_cons, hcn] using hone
      · by_cases hlen : (jsSplitWs (jsTrim p)).length < 2
        · have hnone : parseEntriesGo (p :: (pre' ++ rest')) cols pk = none := by
            simp [parseEntriesGo, hskip, hpkb, hlen]
          rw [hnone] at hok
          simp at hok
        · have hstep : parseEntriesGo (p :: (pre' ++ rest')) cols pk =
              parseEntriesGo (pre' ++ rest')
                (cols ++ [{ name := (jsSplitWs (jsTrim p)).headD "",
                            type := upperStr ((jsSplitWs (jsTrim p)).getD 1 ""),
                            primaryKey := strContains (modifiersOf (jsSplitWs (jsTrim p)))
                              "PRIMARY KEY",
                            unique := strContains (modifiersOf (jsSplitWs (jsTrim p))) "UNIQUE",
                            notNull := strContains (modifiersOf (jsSplitWs (jsTrim p)))
                              "NOT NULL" }])
                (if strContains (modifiersOf (jsSplitWs (jsTrim p))) "PRIMARY KEY" then
                  some ((jsSplitWs (jsTrim p)).headD "") else pk) := by
            simp [parseEntriesGo, hskip, hpkb, hlen]
          rw [hstep] at hok ⊢
          obtain ⟨c2, p2, heq, hsub⟩ := ih rest' _ _ hok
          refine ⟨c2, p2, heq, ?_⟩
          intro a ha
          have hone := hsub a ha
          have hcn : entryColName p = some ((jsSplitWs (jsTrim p)).headD "") := by
            simp [entryColName, hskip, hpkb, hlen]
          simp only [allColNames, List.filterMap_cons, hcn, List.map_append, List.map_cons,
            List.map_nil, List.mem_append, List.mem_cons, List.mem_singleton] at hone ⊢
          rcases hone with (hone | hone) | hone
          · exact Or.inl hone
          · simp only [List.not_mem_nil, or_false] at hone
            exact Or.inr (Or.inl hone)
          · exact Or.inr (Or.inr hone)

/-! Claim theorems. -/

/-- C1: index consistency after mutations.  The scenario `CREATE TABLE
t(id INT PRIMARY KEY); INSERT 1; INSERT 2; DELETE WHERE id = 1`
evaluates the code at the failing input: every statement succeeds and
the indexes are consistent before the delete, but after it the
surviving row's bucket still holds its old physical position, so the
bucket no longer contains exactly the identifiers of the live rows
holding its value. -/
theorem c1_delete_leaves_stale_bucket :
    (executeCreateTable {}
        { tableName := "t",
          columns := [{ name := "id", type := "INT", primaryKey := true }] }).1.success = true ∧
    (executeInsert c1db0 { tableName := "t", values := [.num 1] }).1.success = true ∧
    (executeInsert c1db1 { tableName := "t", values := [.num 2] }).1.success = true ∧
    (executeDelete c1db2 c1del).1.success = true ∧
    c1consistent c1db2 = true ∧
    c1consistent c1db3 = false := by
  decide

/-- C2 counterexample: with the literal `1` (a number) against stored
strings `"1"`, the indexed path misses (strict map lookup) while the
full scan matches (loose equality), so the two paths do not return the
same set of rows. -/
theorem c2_counterexample :
    (executeSelect c2db c2q1).rows = some [] ∧
    (executeSelect c2db c2q2).rows = some [[("name", .str "1")]] ∧
    (executeSelect c2db c2q1).rows ≠ (executeSelect c2db c2q2).rows := by
  decide

/-- C2 amended: when the index on `col` is consistent with the rows
and the literal `v` is non-null and loose-compares against the stored
`col` values exactly as strict equality does, a `SELECT` with the
single predicate `WHERE col = v` returns the same rows whether `col`
is indexed or not, with `rowsScanned` equal to the bucket size on the
indexed path and to the full row count on the scan path. -/
theorem c2_amended_index_scan_equivalence (t tNo : TableState) (col : String) (v : Value)
    (idx : Index) (cols : List String)
    (hidx : lookupA t.indexes col = some idx)
    (hcons : indexExactB idx col t.rows = true)
    (hv : v ≠ .null)
    (hagree : ∀ r ∈ t.rows, looseEq (rowGet r col) (some v) = decide (rowGet r col = some v))
    (hrows : tNo.rows = t.rows)
    (hnoidx : lookupA tNo.indexes col = none) :
    (selectT t cols (some { column := col, operator := "=", value := v })).rows =
      (selectT tNo cols (some { column := col, operator := "=", value := v })).rows ∧
    (selectT t cols (some { column := col, operator := "=", value := v })).rowsScanned =
      ((idxGet idx v).getD []).length ∧
    (selectT tNo cols (some { column := col, operator := "=", value := v })).rowsScanned =
      t.rows.length := by
  have hb : (idxGet idx v).getD [] = matchingPositions t.rows col v :=
    indexExactB_bucket idx col t.rows v hv hcons
  have hfm : (matchingPositions t.rows col v).filterMap (fun i => t.rows[i]?) =
      t.rows.filter (fun r => decide (rowGet r col = some v)) := by
    unfold matchingPositions
    simpa using range_filter_getD_filterMap [] (fun r => decide (rowGet r col = some v)) t.rows
  have hsc : (t.rows.filter
      (fun row => whereMatches row
        (some { column := col, operator := "=", value := v }))) =
      t.rows.filter (fun r => decide (rowGet r col = some v)) := by
    refine List.filter_congr ?_
    intro r hr
    simpa [whereMatches, evaluateWhere] using hagree r hr
  refine ⟨?_, ?_, ?_⟩
  · by_cases hstar : "*" ∈ cols <;>
      simp [selectT, hidx, hnoidx, Option.map, hrows, hsc, hb, hfm, hstar]
  · by_cases hstar : "*" ∈ cols <;> simp [selectT, hidx, Option.map, hb, hstar]
  · by_cases hstar : "*" ∈ cols <;> simp [selectT, hnoidx, Option.map, hrows, hstar]

/-- C2 amended witness: a concrete two-row table with a consistent
index on `id`, queried with the matching integer literal, behaves
identically with and without the index. -/
theorem c2_amended_index_scan_equivalence_witness :
    lookupA c2wt.indexes "id" = some c2widx ∧
    indexExactB c2widx "id" c2wt.rows = true ∧
    ((selectT c2wt ["*"] (some { column := "id", operator := "=", value := .num 1 })).rows =
      (selectT c2wtNo ["*"] (some { column := "id", operator := "=", value := .num 1 })).rows ∧
     (selectT c2wt ["*"] (some { column := "id", operator := "=", value := .num 1 })).rowsScanned =
      ((idxGet c2widx (.num 1)).getD []).length ∧
     (selectT c2wtNo ["*"]
        (some { column := "id", operator := "=", value := .num 1 })).rowsScanned =
      c2wt.rows.length) :=
  ⟨by decide, by decide,
   c2_amended_index_scan_equivalence c2wt c2wtNo "id" (.num 1) c2widx ["*"]
     (by decide) (by decide) (by decide) (by decide) (by decide) (by decide)⟩

/-- C3 counterexample: the pair `(1, "1")` is loose-equal (the
where-clause rule the claim names), yet the join — which compares with
strict equality — retains nothing; the full cross product is still
scanned. -/
theorem c3_counterexample :
    looseEq (some (.num 1)) (some (.str "1")) = true ∧
    (executeJoin c3db c3q).rows = some [] ∧
    (executeJoin c3db c3q).rowsScanned = some 1 := by
  decide

/-- C3 amended: for every `SELECT` with a join clause over two
existing tables, the dispatcher enumerates the full cross product and
retains exactly the pairs whose join columns are strictly (`===`)
equal, merging each retained pair (and applying a non-wildcard
projection), and reports `rowsScanned = |left| * |right|`. -/
theorem c3_amended_join_cross_product (db : DBState) (q : SelectQuery) (jc : JoinClause)
    (lt rt : TableState)
    (h1 : q.joinClause = some jc)
    (h2 : lookupA db.tables q.tableName = some lt)
    (h3 : lookupA db.tables jc.table = some rt) :
    (executeJoin db q).success = true ∧
    (executeJoin db q).rowsScanned = some (lt.rows.length * rt.rows.length) ∧
    (executeJoin db q).rows = some
      (let joined := (((crossPairs lt.rows rt.rows).filter
          (fun p => strictEqO (rowGet p.1 jc.leftColumn) (rowGet p.2 jc.rightColumn))).map
        (fun p => mergeJoinRow q.tableName jc.table p.1 p.2))
       if !(q.selectColumns.contains "*") then joined.map (projectRow q.selectColumns)
       else joined) := by
  have hfold := joinOuterFold lt.rows rt.rows jc.leftColumn jc.rightColumn
    q.tableName jc.table ([], 0)
  simp only [executeJoin, h1, h2, h3, hfold]
  refine ⟨?_, ?_, ?_⟩ <;> simp

/-- C3 amended witness: the two-singleton join on equal numeric
columns retains the one pair and scans the 1 x 1 cross product. -/
theorem c3_amended_join_cross_product_witness :
    c3wq.joinClause = some c3wjc ∧
    lookupA c3wdb.tables "a" = some c3wlt ∧
    lookupA c3wdb.tables "b" = some c3wrt ∧
    ((executeJoin c3wdb c3wq).success = true ∧
     (executeJoin c3wdb c3wq).rowsScanned = some (c3wlt.rows.length * c3wrt.rows.length) ∧
     (executeJoin c3wdb c3wq).rows = some
       (let joined := (((crossPairs c3wlt.rows c3wrt.rows).filter
           (fun p => strictEqO (rowGet p.1 c3wjc.leftColumn) (rowGet p.2 c3wjc.rightColumn))).map
         (fun p => mergeJoinRow c3wq.tableName c3wjc.table p.1 p.2))
        if !(c3wq.selectColumns.contains "*") then joined.map (projectRow c3wq.selectColumns)
        else joined)) :=
  ⟨by decide, by decide, by decide,
   c3_amended_join_cross_product c3wdb c3wq c3wjc c3wlt c3wrt
     (by decide) (by decide) (by decide)⟩

/-- C6 counterexample: a `SELECT` whose where clause names a column
absent from the schema succeeds (the absent value compares as
`undefined`), contradicting the claim that it is returned as a
structured failure. -/
theorem c6_counterexample :
    (executeSelect c6db c6sq).success = true ∧ (executeSelect c6db c6sq).error = none := by
  decide

/-- C6 amended: against an existing table, an unknown column in the
SET clause of an UPDATE is returned as a structured failure provided
some row matches the filter; an unknown column in the WHERE clause is
not an error — SELECT (without join) and DELETE always succeed, and an
UPDATE whose set clause is valid succeeds whatever its WHERE names;
nothing is raised past the dispatcher (the operations are total). -/
theorem c6_amended_unknown_column_boundary :
    (∀ (db : DBState) (q : UpdateQuery) (t : TableState),
        lookupA db.tables q.tableName = some t →
        (∃ r ∈ t.rows, whereMatches r q.whereClause = true) →
        (∃ e ∈ q.setClause, ∀ c ∈ t.schema.columns, c.name ≠ e.1) →
        (executeUpdate db q).1.success = false ∧
          ((executeUpdate db q).1.error).isSome = true) ∧
    (∀ (db : DBState) (q : SelectQuery) (t : TableState),
        lookupA db.tables q.tableName = some t → q.joinClause = none →
        (executeSelect db q).success = true) ∧
    (∀ (db : DBState) (q : DeleteQuery) (t : TableState),
        lookupA db.tables q.tableName = some t →
        (executeDelete db q).1.success = true) ∧
    (∀ (db : DBState) (q : UpdateQuery) (t : TableState),
        lookupA db.tables q.tableName = some t →
        (∀ e ∈ q.setClause, ∃ col,
          t.schema.columns.find? (fun c => decide (c.name = e.1)) = some col ∧
          validateType (some e.2) col.type = true) →
        (executeUpdate db q).1.success = true) := by
  refine ⟨?_, ?_, ?_, ?_⟩
  · intro db q t hlook hmatch hbad
    have herr := updateGo_err_of_unknown t.schema q.setClause q.whereClause hbad
      t.rows 0 t.indexes 0 hmatch
    cases he : (updateGo t.schema q.setClause q.whereClause t.rows 0 t.indexes 0).2.2.2 with
    | none => rw [he] at herr; simp at herr
    | some e => simp [executeUpdate, hlook, updateT, he]
  · intro db q t hlook hjoin
    simp [executeSelect, hlook, hjoin]
  · intro db q t hlook
    simp [executeDelete, hlook]
  · intro db q t hlook hgood
    have hok := updateGo_ok_of_valid t.schema q.setClause q.whereClause hgood
      t.rows 0 t.indexes 0
    simp [executeUpdate, hlook, updateT, hok]

/-- C6 amended witness: `UPDATE t SET nosuch = 1` on a table with one
(trivially matching) row fails as a structured result. -/
theorem c6_amended_unknown_column_boundary_witness :
    lookupA c6db.tables "t" = some c6t ∧
    ((executeUpdate c6db c6uq).1.success = false ∧
      ((executeUpdate c6db c6uq).1.error).isSome = true) :=
  ⟨by decide,
   c6_amended_unknown_column_boundary.1 c6db c6uq c6t (by decide) (by decide) (by decide)⟩

/-- C7 counterexample: a table created but never inserted into has no
persisted blob (`CREATE TABLE` writes only index blobs), so the
reconstructed engine does not contain it at all. -/
theorem c7_counterexample :
    (lookupA c7db.tables "t").isSome = true ∧ (rehydrate c7db.storage).tables = [] := by
  decide

set_option maxRecDepth 4000 in
/-- C9 counterexample: the entry list `PRIMARY KEY(id), id INT` names
in the constraint a column listed only after it, yet parsing succeeds,
because the existence check runs after the whole list is processed. -/
theorem c9_counterexample :
    parseCreateTableEntries c9parts =
      some [{ name := "id", type := "INT", primaryKey := true }] := by
  decide

/-- C4: an insert that fails — arity mismatch, not-null violation,
type mismatch, duplicate primary key or duplicate unique key are the
only failure paths — leaves the row sequence, the index buckets and
the storage completely unchanged and reports `rowsAffected = 0`. -/
theorem c4_failed_insert_is_atomic (t : TableState) (s : StorageState) (values : List Value)
    (h : (insertT t s values).1.success = false) :
    (insertT t s values).2.1 = t ∧ (insertT t s values).2.2 = s ∧
      (insertT t s values).1.rowsAffected = 0 :=
  insertT_fail_frame t s values h

/-- C4 witness: a concrete arity-mismatch insert fails and the frame
facts hold. -/
theorem c4_failed_insert_is_atomic_witness :
    (insertT c4t {} []).1.success = false ∧
    ((insertT c4t {} []).2.1 = c4t ∧ (insertT c4t {} []).2.2 = {} ∧
      (insertT c4t {} []).1.rowsAffected = 0) :=
  ⟨by decide, c4_failed_insert_is_atomic c4t {} [] (by decide)⟩

/-- C9 amended: when the column list of a CREATE TABLE contains a
table-level `PRIMARY KEY(col)` constraint entry and no later entry
sets a primary key, parsing succeeds only if `col` names a column
listed anywhere in the column list — the existence check runs after
the whole list is scanned, not against the columns already listed. -/
theorem c9_amended_pk_checked_after_scan (pre post : List String) (e : String) (col : String)
    (hpk : pkEntryCol e = some col)
    (hpost : ∀ p ∈ post, entrySetsPK p = false)
    (hok : (parseCreateTableEntries (pre ++ e :: post)).isSome = true) :
    col ∈ allColNames (pre ++ e :: post) := by
  unfold parseCreateTableEntries at hok
  obtain ⟨c2, p2, heq, hsub⟩ := parseEntriesGo_append pre (e :: post) [] none hok
  rw [heq] at hok
  have hclass : isSkippedEntry (upperStr (jsTrim e)) = false ∧
      strStartsWith (upperStr (jsTrim e)) "PRIMARY KEY" = true ∧
      findPKMatch (jsTrim e).data = some col := by
    unfold pkEntryCol at hpk
    by_cases h1 : isSkippedEntry (upperStr (jsTrim e))
    · simp [h1] at hpk
    · by_cases h2 : strStartsWith (upperStr (jsTrim e)) "PRIMARY KEY"
      · exact ⟨by simpa using h1, h2, by simpa [h1, h2] using hpk⟩
      · simp [h1, h2] at hpk
  obtain ⟨h1, h2, h3⟩ := hclass
  have hstep : parseEntriesGo (e :: post) c2 p2 = parseEntriesGo post c2 (some col) := by
    simp [parseEntriesGo, h1, h2, h3]
  rw [hstep] at hok
  have hmem := parseEntriesGo_pk_mem post c2 col hpost hok
  have hcne : entryColName e = none := by simp [entryColName, h1, h2]
  rw [List.mem_append] at hmem
  simp only [allColNames, List.filterMap_append, List.filterMap_cons, hcne, List.mem_append]
  rcases hmem with hmem | hmem
  · have hpre := hsub col hmem
    simp only [List.map_nil, List.nil_append, allColNames] at hpre
    exact Or.inl hpre
  · exact Or.inr (by simpa [allColNames] using hmem)

/-- C9 amended witness: `id INT, PRIMARY KEY(id)` parses and the
constraint's column is listed in the column list. -/
theorem c9_amended_pk_checked_after_scan_witness :
    pkEntryCol c9we = some "id" ∧
    (∀ p ∈ ([] : List String), entrySetsPK p = false) ∧
    (parseCreateTableEntries (c9wpre ++ c9we :: [])).isSome = true ∧
    "id" ∈ allColNames (c9wpre ++ c9we :: []) :=
  ⟨by decide, by decide, by decide,
   c9_amended_pk_checked_after_scan c9wpre [] c9we "id" (by decide)
     (by decide) (by decide)⟩

/-- C10: a delete against an existing table has no failure path: it
succeeds with `rowsAffected` equal to the number of rows satisfying
the predicate (all rows when the where clause is absent, and a where
clause may name a column absent from the schema). -/
theorem c10_delete_always_succeeds (db : DBState) (q : DeleteQuery) (t : TableState)
    (h : lookupA db.tables q.tableName = some t) :
    (executeDelete db q).1.success = true ∧
    (executeDelete db q).1.rowsAffected =
      some ((t.rows.filter (fun r => whereMatches r q.whereClause)).length) ∧
    (executeDelete db q).1.error = none := by
  simp [executeDelete, h, deleteT_rowsAffected]

/-- C7 amended: after any create/insert statement sequence from the
empty engine, every table holding at least one row (one successful
insert) is reconstructed from its persisted blob with identical schema
and rows, and with its indexes rebuilt from the loaded rows — the
reconstruction does not depend on the persisted index blobs, which may
be replaced arbitrarily. -/
theorem c7_amended_roundtrip_after_insert (stmts : List Stmt) (name : String)
    (ts : TableState)
    (h : lookupA (applyStmts stmts).tables name = some ts)
    (hne : ts.rows ≠ []) :
    ∃ ts' : TableState,
      (∀ idxBlobs : List ((String × String) × Index),
        lookupA (rehydrate
          { (applyStmts stmts).storage with idxFiles := idxBlobs }).tables name = some ts') ∧
      ts'.schema = ts.schema ∧ ts'.rows = ts.rows ∧
      ts'.indexes = mkIndexes ts.schema ts.rows := by
  obtain ⟨_, _, i3, i4⟩ := DBInv_applyStmts stmts
  rcases i3 name ts h with hstor | ⟨_, hrows⟩
  · refine ⟨{ schema := ts.schema, rows := ts.rows, indexes := mkIndexes ts.schema ts.rows,
              nextRowId := ts.rows.length }, ?_, rfl, rfl, rfl⟩
    intro idxBlobs
    exact rehydrateGo_lookup name ts.schema ts.rows _ i4 hstor _
  · exact absurd hrows hne

/-- C7 amended witness: create a primary-keyed table, insert one row;
the table survives reconstruction with its index rebuilt. -/
theorem c7_amended_roundtrip_after_insert_witness :
    lookupA (applyStmts c7stmts).tables "t" = some c7ts ∧
    c7ts.rows ≠ [] ∧
    (∃ ts' : TableState,
      (∀ idxBlobs : List ((String × String) × Index),
        lookupA (rehydrate
          { (applyStmts c7stmts).storage with idxFiles := idxBlobs }).tables "t" = some ts') ∧
      ts'.schema = c7ts.schema ∧ ts'.rows = c7ts.rows ∧
      ts'.indexes = mkIndexes c7ts.schema c7ts.rows) :=
  ⟨by decide, by decide,
   c7_amended_roundtrip_after_insert c7stmts "t" c7ts (by decide) (by decide)⟩

/-- C8: where parsing scans the operator set in the fixed order
`>=, <=, !=, =, >, <` (two-character operators before their
single-character prefixes), splits the string at the first operator
found, strips an optional `table.` qualifier from the left side and
coerces the right side as a literal; with no operator of the set in
the string, parsing fails. -/
theorem c8_parse_where_characterization (s : String) :
    (parseWhere s = none ↔ ∀ op ∈ whereOps, strContains s op = false) ∧
    (∀ op, whereOps.find? (fun o => strContains s o) = some op →
      parseWhere s =
        some { column := stripQualifier (((jsSplit s op).map (fun x => jsTrim x)).headD ""),
               operator := op,
               value := parseValue (((jsSplit s op).map (fun x => jsTrim x)).getD 1 "") }) :=
  ⟨parseWhereGo_eq_none_iff s whereOps,
   fun op h => parseWhereGo_eq_of_find s whereOps op h⟩

/-- C8 witness: `u.age >= 10` finds `>=` first, strips the qualifier
and coerces the number. -/
theorem c8_parse_where_characterization_witness :
    whereOps.find? (fun o => strContains "u.age >= 10" o) = some ">=" ∧
    parseWhere "u.age >= 10" =
      some { column := stripQualifier
               ((((jsSplit "u.age >= 10" ">=")).map (fun x => jsTrim x)).headD ""),
             operator := ">=",
             value := parseValue
               ((((jsSplit "u.age >= 10" ">=")).map (fun x => jsTrim x)).getD 1 "") } :=
  ⟨by decide, (c8_parse_where_characterization "u.age >= 10").2 ">=" (by decide)⟩

/-- C10 witness: a concrete delete with a where clause removes exactly
the matching row and succeeds. -/
theorem c10_delete_always_succeeds_witness :
    lookupA c10db.tables "t" = some c10t ∧
    ((executeDelete c10db c10q).1.success = true ∧
     (executeDelete c10db c10q).1.rowsAffected =
       some ((c10t.rows.filter (fun r => whereMatches r c10q.whereClause)).length) ∧
     (executeDelete c10db c10q).1.error = none) :=
  ⟨by decide, c10_delete_always_succeeds c10db c10q c10t (by decide)⟩

end RDB
